/-
  Verification development for the AutoQuote workflow orchestrator core.

  Shallow embedding of:
  - src/lib/demo/enforcement.ts        (enforceDemoMode, areCallsAllowed)
  - src/lib/db/calls.ts                (CallsRepository: DynamoDB table of call records)
  - src/lib/db/sessions.ts             (SessionsRepository: DynamoDB table of session records)
  - src/lib/orchestrator/state-machine.ts (checkSessionCompletion, generateFinalReport,
                                           resumeAfterImagePrompt)
  - src/lib/orchestrator/workflow.ts   (runQuoteSessionWorkflow)
  - src/app/api/vapi/webhook/route.ts  (POST handler for Vapi call lifecycle events)
  - src/app/api/v1/sessions/route.ts   (session creation)

  Modelling conventions:
  - DynamoDB items are attribute maps, so every non-key attribute of a stored item is
    an `Option`.  `UpdateItem` with a `SET` expression and no condition expression is an
    upsert: it creates the item (with only the SET attributes) when the key is absent.
    Both repositories in the source issue exactly such unconditional updates, and this
    upsert behaviour is modelled faithfully.
  - External services (OpenRouter damage analysis and report generation, Freepik, S3,
    the Vapi call-creation API) are modelled as oracle values of type `Except`, one per
    invocation site; `Math.random()` inside `enforceDemoMode` is modelled as an
    arbitrary `Nat` argument.
  - Timestamps (`new Date().toISOString()`) are modelled as a `Nat` logical clock
    supplied by the caller.
  - JavaScript `throw`/`catch` is modelled with `Except` results threaded explicitly.
  - Each state-mutating function returns, besides the final store, the list of
    intermediate states (one per repository write) paired with an abstract action tag,
    so that temporal claims about intermediate states and side-effect counts can be
    stated.
-/
import Mathlib

namespace AutoQuote

/-- Session status enum (src/lib/types/session.ts). -/
inductive SessionStatus where
  | CREATED
  | ANALYZING
  | CALLING
  | SUMMARIZING
  | DONE
  | FAILED
deriving DecidableEq, Repr

/-- Call status enum (src/lib/types/call.ts). -/
inductive CallStatus where
  | PENDING
  | IN_PROGRESS
  | COMPLETED
  | FAILED
deriving DecidableEq, Repr

/-- Vehicle info (src/lib/types/session.ts). -/
structure Vehicle where
  make : Option String
  model : Option String
  year : Option Nat
deriving DecidableEq, Repr

/-- Shop descriptor (src/lib/types/session.ts). -/
structure Shop where
  id : String
  name : String
  phone : String
  address : Option String
deriving DecidableEq, Repr

/-- The best-pick block of the final report (schema in REPORT_SYSTEM_PROMPT,
src/lib/orchestrator/state-machine.ts). -/
structure BestPick where
  by_price : Option String
  by_time : Option String
  overall : Option String
deriving DecidableEq, Repr

/-- One quote entry of the final report (schema in REPORT_SYSTEM_PROMPT). -/
structure Quote where
  shop_id : String
  shop_name : String
  price_low : Option Nat
  price_high : Option Nat
  timeframe_days : Option Nat
  can_do_work : Bool
  requires_inspection : Bool
  notes : String
  recommendation_score : Nat
deriving DecidableEq, Repr

/-- The final comparison report persisted on the session. -/
structure Report where
  summary : String
  quotes : List Quote
  best_pick : BestPick
  disclaimer : String
deriving DecidableEq, Repr

/-- A session item as stored in the Sessions DynamoDB table (src/lib/types/session.ts).
`session_id` is the partition key; every other attribute may be absent on an item that
was created by an unconditional `UpdateItem` upsert, hence the `Option`s. -/
structure SessionItem where
  session_id : String
  user_id : Option String
  location : Option String
  vehicle : Option Vehicle
  description_raw : Option String
  shops : Option (List Shop)
  image_keys : Option (List String)
  image_prompt : Option String
  damage_summary : Option String
  report : Option Report
  status : Option SessionStatus
  created_at : Option Nat
  updated_at : Option Nat
deriving DecidableEq, Repr

/-- A call item as stored in the Calls DynamoDB table (src/lib/types/call.ts).
Partition key `session_id`, sort key `shop_id`; non-key attributes optional.
`structured_data` and `transcript` are carried as opaque strings. -/
structure CallItem where
  session_id : String
  shop_id : String
  vapi_call_id : Option String
  to_number : Option String
  status : Option CallStatus
  transcript : Option String
  structured_data : Option String
  summary : Option String
  cost : Option Nat
  duration_seconds : Option Nat
  ended_reason : Option String
  recording_url : Option String
  created_at : Option Nat
  updated_at : Option Nat
deriving DecidableEq, Repr

/-- A session item with every non-key attribute absent: what a DynamoDB upsert starts
from when the key does not exist yet. -/
def emptySessionItem (sid : String) : SessionItem :=
  { session_id := sid, user_id := none, location := none, vehicle := none,
    description_raw := none, shops := none, image_keys := none, image_prompt := none,
    damage_summary := none, report := none, status := none, created_at := none,
    updated_at := none }

/-- A call item with every non-key attribute absent. -/
def emptyCallItem (sid shop : String) : CallItem :=
  { session_id := sid, shop_id := shop, vapi_call_id := none, to_number := none,
    status := none, transcript := none, structured_data := none, summary := none,
    cost := none, duration_seconds := none, ended_reason := none,
    recording_url := none, created_at := none, updated_at := none }

/-- The two DynamoDB tables (persisted state layout, spec §6). -/
structure Store where
  sessions : List SessionItem
  calls : List CallItem
deriving DecidableEq, Repr

/-- The store with both tables empty. -/
def emptyStore : Store := { sessions := [], calls := [] }

/-- Errors thrown by the embedded code (src/lib/utils/errors.ts plus plain `Error`s). -/
inductive AQError where
  /-- DemoModeViolationError thrown by enforceDemoMode for a blocked number. -/
  | demoModeViolation (attemptedNumber : String)
  /-- NotFoundError / `Session not found` errors. -/
  | notFound (identifier : String)
  /-- `Call already exists` error from CallsRepository.create's condition failure. -/
  | callExists (sid shop : String)
  /-- ExternalServiceError wrapping a failed external call. -/
  | externalService (message : String)
  /-- `Cannot start workflow for session in status: ...` error. -/
  | invalidStatus (st : Option SessionStatus)
  /-- JavaScript TypeError from dereferencing an undefined attribute. -/
  | typeError
deriving DecidableEq, Repr

/-- Message text for an error, as consumed by `getErrorMessage` in the source when
recording a failure reason on a call record. -/
def errMessage : AQError → String
  | .demoModeViolation n =>
      "DEMO_MODE violation: Cannot call " ++ n ++ ". Only demo numbers allowed."
  | .notFound ident => "Session not found: " ++ ident
  | .callExists sid shop => "Call already exists for session " ++ sid ++ ", shop " ++ shop
  | .externalService m => "Vapi error: " ++ m
  | .invalidStatus _ => "Cannot start workflow for session in this status"
  | .typeError => "TypeError"

/-- Demo-safety configuration slice of the environment (src/lib/config/env.ts).
All five switches are strings, compared against the literal "true" at use sites. -/
structure EnvCfg where
  DEMO_MODE : String
  DEMO_TO_NUMBERS : String
  DEMO_NUMBER_STRATEGY : String
  SCOPE_CALLS_TO_DEMO_LIST : String
  ALLOW_OUTBOUND_CALLS : String
deriving DecidableEq, Repr

/-- JavaScript `String.prototype.split(",")` on the character list: splits at every
comma, keeping empty segments, and yields one (empty) segment for the empty string.
Written by structural recursion so that it evaluates inside the kernel (Lean's
built-in `String.splitOn` is extensionally the same but is not kernel-reducible). -/
def splitCommaAux : List Char → List Char → List String
  | [], acc => [String.mk acc.reverse]
  | c :: rest, acc =>
    if c = ',' then String.mk acc.reverse :: splitCommaAux rest []
    else splitCommaAux rest (c :: acc)

/-- JavaScript `split(",")` on a string. -/
def splitComma (s : String) : List String :=
  splitCommaAux s.data []

/-- JavaScript `String.prototype.trim()`: strip leading and trailing whitespace. -/
def trimStr (s : String) : String :=
  String.mk (((s.data.dropWhile Char.isWhitespace).reverse.dropWhile
    Char.isWhitespace).reverse)

/-- The demo allow-list: `env.DEMO_TO_NUMBERS.split(",").map(n => n.trim())`
(src/lib/demo/enforcement.ts, also exported as getDemoNumbers). -/
def getDemoNumbers (cfg : EnvCfg) : List String :=
  (splitComma cfg.DEMO_TO_NUMBERS).map (fun n => trimStr n)

/-- Embedding of `enforceDemoMode` (src/lib/demo/enforcement.ts).
`rand` models the `Math.random()` draw of the round-robin branch: the source picks
`Math.floor(Math.random() * demoNumbers.length)`, an arbitrary index below the list
length, which we model as `rand % demoNumbers.length`.  A thrown
DemoModeViolationError is an `Except.error`. -/
def enforceDemoMode (cfg : EnvCfg) (rand : Nat) (originalNumber : String) :
    Except AQError String :=
  let isDemoMode := cfg.DEMO_MODE == "true"
  let scopeToDemo := cfg.SCOPE_CALLS_TO_DEMO_LIST == "true"
  let demoNumbers := getDemoNumbers cfg
  let strategy := cfg.DEMO_NUMBER_STRATEGY
  if !isDemoMode then
    .ok originalNumber
  else if demoNumbers.contains originalNumber then
    .ok originalNumber
  else if scopeToDemo then
    .error (.demoModeViolation originalNumber)
  else
    let replacement :=
      if strategy == "round-robin" then
        demoNumbers.getD (rand % demoNumbers.length) ""
      else
        demoNumbers.getD 0 ""
    .ok replacement

/-- Embedding of `areCallsAllowed` (src/lib/demo/enforcement.ts). -/
def areCallsAllowed (cfg : EnvCfg) : Bool :=
  cfg.ALLOW_OUTBOUND_CALLS == "true"

/-- Update input for SessionsRepository.update: the fields the core ever passes
(damage_summary, report, image_prompt); an `Option.none` field is a JavaScript
`undefined`, skipped by the dynamically built SET expression. -/
structure SessionUpd where
  damage_summary : Option String := none
  report : Option Report := none
  image_prompt : Option String := none
deriving DecidableEq, Repr

/-- Update input for CallsRepository.update (UpdateCallInput, src/lib/types/call.ts);
`none` fields are skipped by the dynamically built SET expression. -/
structure CallUpd where
  vapi_call_id : Option String := none
  status : Option CallStatus := none
  transcript : Option String := none
  structured_data : Option String := none
  summary : Option String := none
  cost : Option Nat := none
  duration_seconds : Option Nat := none
  ended_reason : Option String := none
  recording_url : Option String := none
deriving DecidableEq, Repr

/-- Whether a SessionUpd carries at least one defined field (the source returns early
from the update without any write when only `updated_at` would be set). -/
def SessionUpd.hasField (u : SessionUpd) : Bool :=
  u.damage_summary.isSome || u.report.isSome || u.image_prompt.isSome

/-- Whether a CallUpd carries at least one defined field. -/
def CallUpd.hasField (u : CallUpd) : Bool :=
  u.vapi_call_id.isSome || u.status.isSome || u.transcript.isSome ||
  u.structured_data.isSome || u.summary.isSome || u.cost.isSome ||
  u.duration_seconds.isSome || u.ended_reason.isSome || u.recording_url.isSome

/-- One attribute of a SET expression: a defined update value overwrites the stored
attribute, an undefined one leaves it alone. -/
def overrideOpt {α : Type} (o fallback : Option α) : Option α :=
  match o with
  | some v => some v
  | none => fallback

/-- Apply a SET expression built from a SessionUpd to one session item: each defined
field overwrites the attribute, and `updated_at` is always set. -/
def applySessionUpd (u : SessionUpd) (now : Nat) (it : SessionItem) : SessionItem :=
  { it with
    damage_summary := overrideOpt u.damage_summary it.damage_summary,
    report := overrideOpt u.report it.report,
    image_prompt := overrideOpt u.image_prompt it.image_prompt,
    updated_at := some now }

/-- Apply a SET expression built from a CallUpd to one call item. -/
def applyCallUpd (u : CallUpd) (now : Nat) (it : CallItem) : CallItem :=
  { it with
    vapi_call_id := overrideOpt u.vapi_call_id it.vapi_call_id,
    status := overrideOpt u.status it.status,
    transcript := overrideOpt u.transcript it.transcript,
    structured_data := overrideOpt u.structured_data it.structured_data,
    summary := overrideOpt u.summary it.summary,
    cost := overrideOpt u.cost it.cost,
    duration_seconds := overrideOpt u.duration_seconds it.duration_seconds,
    ended_reason := overrideOpt u.ended_reason it.ended_reason,
    recording_url := overrideOpt u.recording_url it.recording_url,
    updated_at := some now }

/-- DynamoDB UpdateItem on a keyed list: rewrite the (unique) matching item in place,
or append the freshly built item when the key is absent (unconditional updates are
upserts). -/
def upsertList {α : Type} (key : α → Bool) (f : α → α) (mk : α) : List α → List α
  | [] => [mk]
  | x :: rest => if key x then f x :: rest else x :: upsertList key f mk rest

/-- Key predicate for a session item. -/
def sessionKey (sid : String) (it : SessionItem) : Bool := it.session_id == sid

/-- Key predicate for a call item. -/
def callKey (sid shop : String) (c : CallItem) : Bool :=
  c.session_id == sid && c.shop_id == shop

/-- GetItem on the sessions table (SessionsRepository.get). -/
def getSession (s : Store) (sid : String) : Option SessionItem :=
  s.sessions.find? (sessionKey sid)

/-- GetItem on the calls table (CallsRepository.get). -/
def getCall (s : Store) (sid shop : String) : Option CallItem :=
  s.calls.find? (callKey sid shop)

/-- Query of all call items of one session (CallsRepository.getBySession).  DynamoDB
returns them sorted by sort key; the callers only aggregate with order-insensitive
`every`/`filter`, so the insertion order used here is equivalent. -/
def getBySession (s : Store) (sid : String) : List CallItem :=
  s.calls.filter (fun c => c.session_id == sid)

/-- SessionsRepository.create: conditional PutItem, rejected when the key exists. -/
def sessionsCreate (it : SessionItem) (s : Store) : Except AQError Store :=
  if s.sessions.any (sessionKey it.session_id) then
    .error (.notFound it.session_id)
  else
    .ok { s with sessions := s.sessions ++ [it] }

/-- CallsRepository.create: conditional PutItem on the composite key, throwing
`Call already exists` when the (session_id, shop_id) item exists. -/
def callsCreate (it : CallItem) (s : Store) : Except AQError Store :=
  if s.calls.any (callKey it.session_id it.shop_id) then
    .error (.callExists it.session_id it.shop_id)
  else
    .ok { s with calls := s.calls ++ [it] }

/-- SessionsRepository.updateStatus: unconditional UpdateItem setting `status` and
`updated_at`.  There is no condition expression in the source, so this is NOT a
compare-and-set: it overwrites whatever status is stored, and upserts a partial item
when the session does not exist. -/
def sessionsUpdateStatus (sid : String) (st : SessionStatus) (now : Nat) (s : Store) :
    Store :=
  let f := fun (it : SessionItem) => { it with status := some st, updated_at := some now }
  { s with sessions := upsertList (sessionKey sid) f (f (emptySessionItem sid)) s.sessions }

/-- SessionsRepository.update: unconditional UpdateItem with a dynamically built SET
expression; returns without writing when no field is defined. -/
def sessionsUpdate (sid : String) (u : SessionUpd) (now : Nat) (s : Store) : Store :=
  if !u.hasField then s
  else
    { s with
      sessions := upsertList (sessionKey sid) (applySessionUpd u now)
        (applySessionUpd u now (emptySessionItem sid)) s.sessions }

/-- CallsRepository.update: unconditional UpdateItem with a dynamically built SET
expression.  No condition expression: last write wins, and a missing item is created
(upserted) with only the SET attributes. -/
def callsUpdate (sid shop : String) (u : CallUpd) (now : Nat) (s : Store) : Store :=
  if !u.hasField then s
  else
    { s with
      calls := upsertList (callKey sid shop) (applyCallUpd u now)
        (applyCallUpd u now (emptyCallItem sid shop)) s.calls }

/-- Abstract action tags recorded alongside each state transition, used to state
side-effect claims (dialing, synthesis triggering). -/
inductive Action where
  /-- SessionsRepository.updateStatus write. -/
  | sessionStatusWrite (sid : String) (st : SessionStatus)
  /-- SessionsRepository.update write (damage summary, report, image prompt). -/
  | sessionFieldsWrite (sid : String)
  /-- CallsRepository.create write. -/
  | callCreate (sid shop : String)
  /-- CallsRepository.update write. -/
  | callWrite (sid shop : String)
  /-- checkSessionCompletion observed all calls terminal and entered the
  SUMMARIZING-plus-report branch: the report-synthesis trigger fired. -/
  | synthTrigger (sid : String)
  /-- VapiClient.createCall succeeded: an outbound call to `number` was placed. -/
  | vapiDial (sid shop number : String)
  /-- FreepikService.createImageToPromptTask submitted. -/
  | freepikTask (sid : String)
deriving DecidableEq, Repr

/-- One observable step: the action taken and the store state right after it. -/
structure Step where
  act : Action
  post : Store
deriving DecidableEq, Repr

/-- A state-and-trace result of running a stateful operation. -/
abbrev Tr := Store × List Step

/-- Count of report-synthesis trigger firings in a trace. -/
def synthCount (steps : List Step) : Nat :=
  steps.countP (fun st => match st.act with | .synthTrigger _ => true | _ => false)

/-- Count of outbound calls placed in a trace. -/
def dialCount (steps : List Step) : Nat :=
  steps.countP (fun st => match st.act with | .vapiDial _ _ _ => true | _ => false)

/-- Whether a stored call status is terminal:
`["COMPLETED", "FAILED"].includes(c.status)` in checkSessionCompletion; an item whose
status attribute is absent does not pass the includes test. -/
def isTerminalStatus (st : Option CallStatus) : Bool :=
  st == some .COMPLETED || st == some .FAILED

/-- The minimal no-quotes report built by generateFinalReport when no call reached
COMPLETED (src/lib/orchestrator/state-machine.ts). -/
def minimalNoQuotesReport : Report :=
  { summary := "Unfortunately, none of the calls were successful. Please try again or contact the shops directly.",
    quotes := [],
    best_pick := { by_price := none, by_time := none, overall := none },
    disclaimer := "No quotes were obtained. Please contact shops directly for estimates." }

/-- Embedding of `generateFinalReport` (src/lib/orchestrator/state-machine.ts).
`reportOracle` stands for the OpenRouter chat completion plus JSON.parse; its failure
is the thrown error of either.  When completed calls exist, building the report
prompt dereferences `session.shops.find`, which raises a TypeError when the stored
session has no `shops` attribute (possible only for upserted partial items).  Errors
propagate to the caller together with the writes performed before the throw. -/
def generateFinalReport (now : Nat) (reportOracle : Except String Report)
    (sid : String) (calls : List CallItem) (s : Store) :
    Tr × Except AQError Unit :=
  match getSession s sid with
  | none => ((s, []), .error (.notFound sid))
  | some sess =>
    let completedCalls := calls.filter (fun c => c.status == some .COMPLETED)
    if completedCalls.isEmpty then
      let s1 := sessionsUpdate sid { report := some minimalNoQuotesReport } now s
      ((s1, [⟨.sessionFieldsWrite sid, s1⟩]), .ok ())
    else
      match sess.shops with
      | none => ((s, []), .error .typeError)
      | some _ =>
        match reportOracle with
        | .error e => ((s, []), .error (.externalService e))
        | .ok report =>
          let s1 := sessionsUpdate sid { report := some report } now s
          ((s1, [⟨.sessionFieldsWrite sid, s1⟩]), .ok ())

/-- Embedding of `checkSessionCompletion` (src/lib/orchestrator/state-machine.ts).
Fetches all calls of the session; when every one is terminal it unconditionally
writes SUMMARIZING (no compare-and-set, no check of the current session status),
generates the final report, then writes DONE, falling to a FAILED write when report
generation threw. -/
def checkSessionCompletion (now : Nat) (reportOracle : Except String Report)
    (sid : String) (s : Store) : Tr :=
  let calls := getBySession s sid
  if calls.all (fun c => isTerminalStatus c.status) then
    let s1 := sessionsUpdateStatus sid .SUMMARIZING now s
    let head : List Step :=
      [⟨.sessionStatusWrite sid .SUMMARIZING, s1⟩, ⟨.synthTrigger sid, s1⟩]
    match generateFinalReport now reportOracle sid calls s1 with
    | ((s2, t2), .ok ()) =>
      let s3 := sessionsUpdateStatus sid .DONE now s2
      (s3, head ++ t2 ++ [⟨.sessionStatusWrite sid .DONE, s3⟩])
    | ((s2, t2), .error _) =>
      let s3 := sessionsUpdateStatus sid .FAILED now s2
      (s3, head ++ t2 ++ [⟨.sessionStatusWrite sid .FAILED, s3⟩])
  else
    (s, [])

/-- Vapi webhook event kinds handled by the POST switch
(src/app/api/vapi/webhook/route.ts). -/
inductive WType where
  | callStarted
  | callEnded
  | callFailed
  | statusUpdate
  | other
deriving DecidableEq, Repr

/-- A parsed Vapi webhook event.  Signature verification and JSON parsing are
transport-level concerns outside the model; the handler is entered with the already
parsed event.  `meta_*` fields are `event.assistant?.metadata` attributes;
`messageTimes` are the `call.artifact.messages[*].time` epoch-millisecond stamps the
handler derives the duration from. -/
structure WEvent where
  wtype : WType
  meta_session_id : Option String
  meta_shop_id : Option String
  meta_shop_name : Option String
  callId : Option String
  transcript : Option String
  structuredData : Option String
  summary : Option String
  cost : Option Nat
  endedReason : Option String
  recordingUrl : Option String
  messageTimes : List Nat
deriving DecidableEq, Repr

/-- Webhook HTTP outcome (the handler acknowledges with 200 in both listed forms). -/
inductive WResp where
  /-- 200 `{ received: true }`. -/
  | received
  /-- 200 `{ received: true, warning: "Missing metadata" }`. -/
  | receivedWarning
deriving DecidableEq, Repr

/-- JavaScript truthiness of an optional string: `undefined` and `""` are falsy
(the metadata guard `!metadata?.session_id` drops both). -/
def metaPresent (o : Option String) : Bool :=
  match o with
  | some v => v != ""
  | none => false

/-- JavaScript `a || b` on an optional string with a string default
(`event.call?.endedReason || "Unknown failure"`). -/
def jsOrElse (o : Option String) (d : String) : String :=
  match o with
  | some v => if v == "" then d else v
  | none => d

/-- Duration computed by the call.ended branch: when at least two artifact messages
exist, `Math.round((lastTime - firstTime) / 1000)` (half-up rounding on the
millisecond difference), otherwise undefined. -/
def durationFromMessages (ts : List Nat) : Option Nat :=
  if ts.length ≥ 2 then some ((ts.getLastD 0 - ts.headD 0 + 500) / 1000) else none

/-- The CallsRepository.update input the call.started branch builds. -/
def startedUpd (ev : WEvent) : CallUpd :=
  { status := some .IN_PROGRESS, vapi_call_id := ev.callId }

/-- The CallsRepository.update input the call.ended branch builds. -/
def endedUpd (ev : WEvent) : CallUpd :=
  { status := some .COMPLETED,
    transcript := ev.transcript,
    structured_data := ev.structuredData,
    summary := ev.summary,
    cost := ev.cost,
    duration_seconds := durationFromMessages ev.messageTimes,
    ended_reason := ev.endedReason,
    recording_url := ev.recordingUrl }

/-- The CallsRepository.update input the call.failed branch builds. -/
def failedUpd (ev : WEvent) : CallUpd :=
  { status := some .FAILED,
    ended_reason := some (jsOrElse ev.endedReason "Unknown failure") }

/-- Embedding of the webhook POST handler (src/app/api/vapi/webhook/route.ts) from
the metadata guard onward.  Events without usable session/shop metadata are
acknowledged with a warning and processed no further.  started/ended/failed events
issue the corresponding CallsRepository.update; terminal events then run
checkSessionCompletion.  Nothing on these paths throws (the repository update is an
upsert and checkSessionCompletion catches internally), so the handler always returns
a 200 acknowledgement. -/
def webhookPOST (now : Nat) (reportOracle : Except String Report) (ev : WEvent)
    (s : Store) : Tr × WResp :=
  if !(metaPresent ev.meta_session_id && metaPresent ev.meta_shop_id) then
    ((s, []), .receivedWarning)
  else
    let sid := ev.meta_session_id.getD ""
    let shop := ev.meta_shop_id.getD ""
    match ev.wtype with
    | .callStarted =>
      let s1 := callsUpdate sid shop (startedUpd ev) now s
      ((s1, [⟨.callWrite sid shop, s1⟩]), .received)
    | .callEnded =>
      let s1 := callsUpdate sid shop (endedUpd ev) now s
      let r := checkSessionCompletion now reportOracle sid s1
      ((r.1, ⟨.callWrite sid shop, s1⟩ :: r.2), .received)
    | .callFailed =>
      let s1 := callsUpdate sid shop (failedUpd ev) now s
      let r := checkSessionCompletion now reportOracle sid s1
      ((r.1, ⟨.callWrite sid shop, s1⟩ :: r.2), .received)
    | .statusUpdate => ((s, []), .received)
    | .other => ((s, []), .received)

/-- Oracles for the external collaborators of one workflow run.  Per-shop values are
keyed by shop id.  `rand1` feeds the `enforceDemoMode` call made directly by the
dispatch loop, `rand2` the one made again inside `VapiClient.createCall`. -/
structure Oracles where
  /-- Combined S3 signed-URL + Freepik task submission outcome (image branch). -/
  imageTask : Except String Unit
  /-- OpenRouterService.generateDamageSummary outcome (opaque summary text). -/
  damage : Except String String
  /-- Math.random draw for the workflow-side enforceDemoMode, per shop. -/
  rand1 : String → Nat
  /-- Math.random draw for the createCall-side enforceDemoMode, per shop. -/
  rand2 : String → Nat
  /-- Vapi call-creation API outcome per shop: the assigned call id, or the thrown
  failure message. -/
  vapi : String → Except String String

/-- A fresh PENDING call record as built by the dispatch loop
(src/lib/orchestrator/workflow.ts). -/
def newPendingCall (sid shop target : String) (now : Nat) : CallItem :=
  { emptyCallItem sid shop with
    to_number := some target, status := some .PENDING,
    created_at := some now, updated_at := some now }

/-- Embedding of `VapiClient.createCall` (src/lib/services/vapi/client.ts).
`validateAssistantConfig` always passes here: the config handed in is built by
`buildAssistantConfig`, which hardcodes the required provider/model/thinking values
(src/lib/services/vapi/assistant.ts), so no SpecViolationError path is reachable.
The client then re-runs enforceDemoMode on the shop's phone and performs the HTTP
call-creation request; returns the resolved destination and the assigned call id. -/
def vapiCreateCall (cfg : EnvCfg) (orc : Oracles) (shop : Shop) :
    Except AQError (String × String) :=
  match enforceDemoMode cfg (orc.rand2 shop.id) shop.phone with
  | .error e => .error e
  | .ok target =>
    match orc.vapi shop.id with
    | .error msg => .error (.externalService msg)
    | .ok callId => .ok (target, callId)

/-- One iteration of the dispatch loop of `runQuoteSessionWorkflow`
(src/lib/orchestrator/workflow.ts): resolve the destination through the safety gate,
create the PENDING record, place the Vapi call, mark IN_PROGRESS; any thrown error is
caught and recorded as a FAILED status on that shop's record before moving on.  The
catch-side `CallsRepository.update` is an unconditional upsert that never throws, so
the nested fallback `create` in the source is unreachable. -/
def dispatchShop (cfg : EnvCfg) (orc : Oracles) (now : Nat) (sid : String)
    (shop : Shop) (s : Store) : Tr :=
  let failWith := fun (e : AQError) (s' : Store) (pre : List Step) =>
    let s2 := callsUpdate sid shop.id
      { status := some .FAILED, ended_reason := some (errMessage e) } now s'
    (s2, pre ++ [⟨.callWrite sid shop.id, s2⟩])
  match enforceDemoMode cfg (orc.rand1 shop.id) shop.phone with
  | .error e => failWith e s []
  | .ok target =>
    match callsCreate (newPendingCall sid shop.id target now) s with
    | .error e => failWith e s []
    | .ok s1 =>
      let pre : List Step := [⟨.callCreate sid shop.id, s1⟩]
      match vapiCreateCall cfg orc shop with
      | .error e => failWith e s1 pre
      | .ok (dialed, callId) =>
        let s2 := callsUpdate sid shop.id
          { vapi_call_id := some callId, status := some .IN_PROGRESS } now s1
        (s2, pre ++ [⟨.vapiDial sid shop.id dialed, s1⟩, ⟨.callWrite sid shop.id, s2⟩])

/-- The full dispatch loop over the session's shop list, in order. -/
def dispatchAll (cfg : EnvCfg) (orc : Oracles) (now : Nat) (sid : String) :
    List Shop → Store → Tr
  | [], s => (s, [])
  | shop :: rest, s =>
    let (s1, t1) := dispatchShop cfg orc now sid shop s
    let (s2, t2) := dispatchAll cfg orc now sid rest s1
    (s2, t1 ++ t2)

/-- Embedding of `runQuoteSessionWorkflow` (src/lib/orchestrator/workflow.ts).
Returns the final store, the trace, and the function's own outcome (`throw`s that
escape the catch block are re-thrown after the FAILED status write).  The image
branch submits the Freepik task and continues without waiting; phases 3 and 4 are
left to the webhook-driven checkSessionCompletion, except on the kill-switch path,
which writes SUMMARIZING then DONE directly. -/
def runQuoteSessionWorkflow (cfg : EnvCfg) (orc : Oracles) (now : Nat)
    (sid : String) (s : Store) : Tr × Except AQError Unit :=
  let catchFail := fun (e : AQError) (s' : Store) (pre : List Step) =>
    let sF := sessionsUpdateStatus sid .FAILED now s'
    ((sF, pre ++ [⟨.sessionStatusWrite sid .FAILED, sF⟩]), Except.error e)
  match getSession s sid with
  | none => ((s, []), .error (.notFound sid))
  | some sess =>
    if sess.status != some .CREATED then
      ((s, []), .error (.invalidStatus sess.status))
    else
      let s1 := sessionsUpdateStatus sid .ANALYZING now s
      let t1 : List Step := [⟨.sessionStatusWrite sid .ANALYZING, s1⟩]
      let imgNeeded :=
        (match sess.image_keys with | some ks => !ks.isEmpty | none => false) &&
        !(sess.image_prompt.isSome)
      match (if imgNeeded then orc.imageTask else .ok ()) with
      | .error m => catchFail (.externalService m) s1 t1
      | .ok () =>
        let t2 := t1 ++ (if imgNeeded then [⟨.freepikTask sid, s1⟩] else [])
        match getSession s1 sid with
        | none => catchFail (.notFound sid) s1 t2
        | some _refreshed =>
          match orc.damage with
          | .error m => catchFail (.externalService m) s1 t2
          | .ok damageSummary =>
            let s2 := sessionsUpdate sid { damage_summary := some damageSummary } now s1
            let t3 := t2 ++ [⟨.sessionFieldsWrite sid, s2⟩]
            let s3 := sessionsUpdateStatus sid .CALLING now s2
            let t4 := t3 ++ [⟨.sessionStatusWrite sid .CALLING, s3⟩]
            if !(areCallsAllowed cfg) then
              let s4 := sessionsUpdateStatus sid .SUMMARIZING now s3
              let s5 := sessionsUpdateStatus sid .DONE now s4
              ((s5, t4 ++ [⟨.sessionStatusWrite sid .SUMMARIZING, s4⟩,
                           ⟨.sessionStatusWrite sid .DONE, s5⟩]), .ok ())
            else
              match getSession s3 sid with
              | none => catchFail (.notFound sid) s3 t4
              | some sessionWithSummary =>
                match sessionWithSummary.shops with
                | none => catchFail .typeError s3 t4
                | some shops =>
                  let (s4, t5) := dispatchAll cfg orc now sid shops s3
                  ((s4, t4 ++ t5), .ok ())

/-- Embedding of `resumeAfterImagePrompt` (src/lib/orchestrator/state-machine.ts):
no-ops when the session is absent or not in ANALYZING; otherwise saves the prompt,
regenerates the damage summary (failure transitions to FAILED). -/
def resumeAfterImagePrompt (now : Nat) (damageOracle : Except String String)
    (sid prompt : String) (s : Store) : Tr :=
  match getSession s sid with
  | none => (s, [])
  | some sess =>
    if sess.status != some .ANALYZING then (s, [])
    else
      let s1 := sessionsUpdate sid { image_prompt := some prompt } now s
      let t1 : List Step := [⟨.sessionFieldsWrite sid, s1⟩]
      match damageOracle with
      | .error _ =>
        let s2 := sessionsUpdateStatus sid .FAILED now s1
        (s2, t1 ++ [⟨.sessionStatusWrite sid .FAILED, s2⟩])
      | .ok dmg =>
        let s2 := sessionsUpdate sid { damage_summary := some dmg } now s1
        (s2, t1 ++ [⟨.sessionFieldsWrite sid, s2⟩])

/-- Validated input of the session-creation route (src/app/api/v1/sessions/route.ts);
`session_id` stands for the generated nanoid and `user_id` for the authenticated
subject. -/
structure CreateSessionInput where
  session_id : String
  user_id : String
  location : String
  vehicle : Option Vehicle
  description_raw : String
  shops : List Shop
deriving DecidableEq, Repr

/-- The session object the creation route persists: status CREATED, no report, no
image or damage fields. -/
def mkCreatedSession (inp : CreateSessionInput) (now : Nat) : SessionItem :=
  { session_id := inp.session_id, user_id := some inp.user_id,
    location := some inp.location, vehicle := inp.vehicle,
    description_raw := some inp.description_raw, shops := some inp.shops,
    image_keys := none, image_prompt := none, damage_summary := none,
    report := none, status := some .CREATED,
    created_at := some now, updated_at := some now }

/-- The operations through which the modelled system mutates the two tables: session
creation, workflow start, a Vapi webhook delivery, and the Freepik resume callback. -/
inductive Cmd where
  | createSession (inp : CreateSessionInput) (now : Nat)
  | startWorkflow (cfg : EnvCfg) (orc : Oracles) (now : Nat) (sid : String)
  | webhook (now : Nat) (reportOracle : Except String Report) (ev : WEvent)
  | resumeImage (now : Nat) (damageOracle : Except String String) (sid prompt : String)

/-- Run one command, discarding its HTTP response / thrown error (which do not affect
stored state beyond what the trace already records). -/
def runCmd (c : Cmd) (s : Store) : Tr :=
  match c with
  | .createSession inp now =>
    match sessionsCreate (mkCreatedSession inp now) s with
    | .ok s1 => (s1, [⟨.sessionFieldsWrite inp.session_id, s1⟩])
    | .error _ => (s, [])
  | .startWorkflow cfg orc now sid => (runQuoteSessionWorkflow cfg orc now sid s).1
  | .webhook now reportOracle ev => (webhookPOST now reportOracle ev s).1
  | .resumeImage now damageOracle sid prompt =>
    resumeAfterImagePrompt now damageOracle sid prompt s

/-- Run a command sequence, accumulating the write-by-write trace. -/
def runCmds : List Cmd → Store → Tr
  | [], s => (s, [])
  | c :: rest, s =>
    let (s1, t1) := runCmd c s
    let (s2, t2) := runCmds rest s1
    (s2, t1 ++ t2)

/-- Every store state the system passes through while executing `cmds` from the empty
store: the initial state plus the state after each individual repository write. -/
def reachableStores (cmds : List Cmd) : List Store :=
  emptyStore :: (runCmds cmds emptyStore).2.map Step.post

/-- Decidable per-item form of the report/status relationship that actually holds in
the code: a stored report entails status SUMMARIZING, DONE or FAILED. -/
def sessionItemOk (it : SessionItem) : Bool :=
  !it.report.isSome ||
    (it.status == some .SUMMARIZING || it.status == some .DONE ||
     it.status == some .FAILED)

/-- All call records of a session are terminal (the all-complete test of
checkSessionCompletion). -/
def allTerminal (s : Store) (sid : String) : Bool :=
  (getBySession s sid).all (fun c => isTerminalStatus c.status)

/-- The shop id carried by an event's metadata (empty when absent). -/
def shopOf (ev : WEvent) : String := ev.meta_shop_id.getD ""

/-- A well-correlated terminal event for session `sid`. -/
def termEv (sid : String) (ev : WEvent) : Prop :=
  (ev.wtype = .callEnded ∨ ev.wtype = .callFailed) ∧
  ev.meta_session_id = some sid ∧ sid ≠ "" ∧
  ev.meta_shop_id = some (shopOf ev) ∧ shopOf ev ≠ ""

instance termEvDecidable (sid : String) (ev : WEvent) : Decidable (termEv sid ev) := by
  unfold termEv
  infer_instance

/-- Deliver a list of webhook events sequentially (all with the same clock value and
report oracle; the generality needed by the claims is in the event order). -/
def runWebhooks (now : Nat) (reportOracle : Except String Report) :
    List WEvent → Store → Tr
  | [], s => (s, [])
  | ev :: rest, s =>
    let ((s1, t1), _) := webhookPOST now reportOracle ev s
    let (s2, t2) := runWebhooks now reportOracle rest s1
    (s2, t1 ++ t2)

/-- Whether the safety gate rejects this shop's number on the dispatch-loop side. -/
def gateRejects (cfg : EnvCfg) (orc : Oracles) (shop : Shop) : Bool :=
  match enforceDemoMode cfg (orc.rand1 shop.id) shop.phone with
  | .error _ => true
  | .ok _ => false

/-- Whether this shop's dispatch attempt fails (safety-gate rejection on either
enforcement call, or a voice-platform error). -/
def dispatchFails (cfg : EnvCfg) (orc : Oracles) (shop : Shop) : Bool :=
  gateRejects cfg orc shop ||
  (match vapiCreateCall cfg orc shop with | .error _ => true | .ok _ => false)

/-- The call record one shop's dispatch leaves behind when its key was previously
absent, as a function of that shop's own data and oracles only (independence from the
rest of the batch is the content of the fault-isolation theorem). -/
def dispatchOutcome (cfg : EnvCfg) (orc : Oracles) (now : Nat) (sid : String)
    (shop : Shop) : CallItem :=
  match enforceDemoMode cfg (orc.rand1 shop.id) shop.phone with
  | .error e =>
    applyCallUpd { status := some .FAILED, ended_reason := some (errMessage e) } now
      (emptyCallItem sid shop.id)
  | .ok target =>
    match vapiCreateCall cfg orc shop with
    | .error e =>
      applyCallUpd { status := some .FAILED, ended_reason := some (errMessage e) } now
        (newPendingCall sid shop.id target now)
    | .ok (_, callId) =>
      applyCallUpd { vapi_call_id := some callId, status := some .IN_PROGRESS } now
        (newPendingCall sid shop.id target now)

/-- Concrete shop fixtures used by witnesses and counterexamples. -/
def wShopA : Shop :=
  { id := "A", name := "Alpha Body", phone := "+15550100001", address := none }

/-- Second concrete shop. -/
def wShopB : Shop :=
  { id := "B", name := "Bravo Collision", phone := "+15550100002", address := none }

/-- Third concrete shop. -/
def wShopC : Shop :=
  { id := "C", name := "Charlie Auto", phone := "+15550100003", address := none }

/-- A shop whose number is outside every demo allow-list used in the fixtures. -/
def wShopX : Shop :=
  { id := "X", name := "Xray Garage", phone := "+15559999999", address := none }

/-- Concrete session-creation input. -/
def wInput : CreateSessionInput :=
  { session_id := "s1", user_id := "u1", location := "94016", vehicle := none,
    description_raw := "dented rear bumper and cracked tail light",
    shops := [wShopA, wShopB] }

/-- A store holding one freshly created session and no call records. -/
def wStoreNoCalls : Store :=
  { sessions := [mkCreatedSession wInput 0], calls := [] }

/-- A COMPLETED call record for shop A of session s1. -/
def wCallDoneA : CallItem :=
  { emptyCallItem "s1" "A" with
    to_number := some "+15550100001",
    status := some CallStatus.COMPLETED, transcript := some "quoted 200 to 400",
    created_at := some 1, updated_at := some 3 }

/-- An IN_PROGRESS call record for shop A of session s1. -/
def wCallProgA : CallItem :=
  { emptyCallItem "s1" "A" with
    to_number := some "+15550100001",
    status := some CallStatus.IN_PROGRESS, created_at := some 1, updated_at := some 2 }

/-- An IN_PROGRESS call record for shop B of session s1. -/
def wCallProgB : CallItem :=
  { emptyCallItem "s1" "B" with
    to_number := some "+15550100001",
    status := some CallStatus.IN_PROGRESS, created_at := some 1, updated_at := some 2 }

/-- A store with session s1 in CALLING and shop A's call already COMPLETED. -/
def wStoreTerminal : Store :=
  { sessions := [{ mkCreatedSession wInput 0 with status := some SessionStatus.CALLING }],
    calls := [wCallDoneA] }

/-- A store with session s1 in CALLING and one IN_PROGRESS call (shop A). -/
def wStoreOneCall : Store :=
  { sessions := [{ mkCreatedSession wInput 0 with status := some SessionStatus.CALLING }],
    calls := [wCallProgA] }

/-- A store with session s1 in CALLING and two IN_PROGRESS calls (shops A and B). -/
def wStoreTwoCalls : Store :=
  { sessions := [{ mkCreatedSession wInput 0 with status := some SessionStatus.CALLING }],
    calls := [wCallProgA, wCallProgB] }

/-- A call.started event correlated to (s1, A). -/
def wStartedEvA : WEvent :=
  { wtype := .callStarted, meta_session_id := some "s1", meta_shop_id := some "A",
    meta_shop_name := some "Alpha Body", callId := some "vapi-1", transcript := none,
    structuredData := none, summary := none, cost := none, endedReason := none,
    recordingUrl := none, messageTimes := [] }

/-- A call.ended event correlated to (s1, A). -/
def wEndedEvA : WEvent :=
  { wtype := .callEnded, meta_session_id := some "s1", meta_shop_id := some "A",
    meta_shop_name := some "Alpha Body", callId := some "vapi-1",
    transcript := some "we can do 200 to 400",
    structuredData := some "quote_provided true", summary := some "quoted",
    cost := some 2, endedReason := some "customer-ended-call", recordingUrl := none,
    messageTimes := [1000, 61000] }

/-- A call.failed event correlated to (s1, B). -/
def wFailedEvB : WEvent :=
  { wtype := .callFailed, meta_session_id := some "s1", meta_shop_id := some "B",
    meta_shop_name := some "Bravo Collision", callId := some "vapi-2",
    transcript := none, structuredData := none, summary := none, cost := none,
    endedReason := some "no-answer", recordingUrl := none, messageTimes := [] }

/-- A call.ended event correlated to (s1, ghost): no such call record exists. -/
def wGhostEv : WEvent :=
  { wtype := .callEnded, meta_session_id := some "s1", meta_shop_id := some "ghost",
    meta_shop_name := some "Ghost Shop", callId := some "vapi-9", transcript := none,
    structuredData := none, summary := none, cost := none, endedReason := none,
    recordingUrl := none, messageTimes := [] }

/-- An event with no usable correlation metadata. -/
def wNoMetaEv : WEvent :=
  { wtype := .callEnded, meta_session_id := none, meta_shop_id := some "A",
    meta_shop_name := none, callId := none, transcript := none,
    structuredData := none, summary := none, cost := none, endedReason := none,
    recordingUrl := none, messageTimes := [] }

/-- A concrete successful report used as the synthesis oracle's output. -/
def wReport : Report :=
  { summary := "One usable quote obtained.",
    quotes := [{ shop_id := "A", shop_name := "Alpha Body", price_low := some 200,
                 price_high := some 400, timeframe_days := some 3, can_do_work := true,
                 requires_inspection := false, notes := "phone estimate",
                 recommendation_score := 8 }],
    best_pick := { by_price := some "A", by_time := some "A", overall := some "A" },
    disclaimer := "Estimates only." }

/-- Demo-mode configuration with strict scoping. -/
def wCfgStrict : EnvCfg :=
  { DEMO_MODE := "true", DEMO_TO_NUMBERS := "+15550100001",
    DEMO_NUMBER_STRATEGY := "first", SCOPE_CALLS_TO_DEMO_LIST := "true",
    ALLOW_OUTBOUND_CALLS := "true" }

/-- Configuration with demo mode off and outbound calls allowed. -/
def wCfgOpen : EnvCfg :=
  { DEMO_MODE := "false", DEMO_TO_NUMBERS := "+15550100001",
    DEMO_NUMBER_STRATEGY := "first", SCOPE_CALLS_TO_DEMO_LIST := "false",
    ALLOW_OUTBOUND_CALLS := "true" }

/-- Configuration with the global outbound-call kill switch off. -/
def wCfgNoCalls : EnvCfg :=
  { DEMO_MODE := "false", DEMO_TO_NUMBERS := "+15550100001",
    DEMO_NUMBER_STRATEGY := "first", SCOPE_CALLS_TO_DEMO_LIST := "false",
    ALLOW_OUTBOUND_CALLS := "false" }

/-- Oracles where everything succeeds; the Vapi platform rejects shop B only. -/
def wOrcVapiBFails : Oracles :=
  { imageTask := .ok (), damage := .ok "rear bumper damage, moderate",
    rand1 := fun _ => 0, rand2 := fun _ => 0,
    vapi := fun shopId => if shopId == "B" then .error "http 429" else .ok ("call-" ++ shopId) }

/-- Oracles where everything succeeds. -/
def wOrcAllOk : Oracles :=
  { imageTask := .ok (), damage := .ok "rear bumper damage, moderate",
    rand1 := fun _ => 0, rand2 := fun _ => 0,
    vapi := fun shopId => .ok ("call-" ++ shopId) }

/-- Concrete session-creation input whose only shop is outside the allow-list. -/
def wInputX : CreateSessionInput :=
  { session_id := "s9", user_id := "u1", location := "94016", vehicle := none,
    description_raw := "scratched door panel needs repainting",
    shops := [wShopX] }

/-- A store holding only the freshly created session s9. -/
def wStoreX : Store :=
  { sessions := [mkCreatedSession wInputX 0], calls := [] }

/-- Every member of an upsert result is the rewritten first key match, the freshly
created item (only when no match existed), or an untouched member. -/
theorem upsertList_forall {α : Type} {P : α → Prop} (key : α → Bool) (f : α → α)
    (mk : α) :
    ∀ l : List α, (∀ x ∈ l, P x) → (∀ x, l.find? key = some x → P (f x)) →
      (l.find? key = none → P mk) → ∀ y ∈ upsertList key f mk l, P y := by
  intro l
  induction l with
  | nil =>
    intro _ _ hmk y hy
    simp only [upsertList, List.mem_singleton] at hy
    subst hy
    exact hmk rfl
  | cons x l ih =>
    intro hl hf hmk y hy
    by_cases hx : key x = true
    · simp only [upsertList, if_pos hx, List.mem_cons] at hy
      rcases hy with hy | hy
      · subst hy
        exact hf x (List.find?_cons_of_pos _ hx)
      · exact hl y (List.mem_cons_of_mem _ hy)
    · rw [Bool.not_eq_true] at hx
      simp only [upsertList, hx, Bool.false_eq_true, if_false, List.mem_cons] at hy
      rcases hy with hy | hy
      · rw [hy]
        exact hl x (List.mem_cons_self _ _)
      · refine ih (fun z hz => hl z (List.mem_cons_of_mem _ hz)) ?_ ?_ y hy
        · intro z hz
          refine hf z ?_
          rw [List.find?_cons_of_neg _ (by simp [hx])]
          exact hz
        · intro hz
          refine hmk ?_
          rw [List.find?_cons_of_neg _ (by simp [hx])]
          exact hz

/-- Looking up the upsert key after an upsert: the rewritten first match when one
existed, the created item otherwise. -/
theorem find?_upsertList_eq {α : Type} (key : α → Bool) (f : α → α) (mk : α)
    (hf : ∀ x, key x = true → key (f x) = true) (hmk : key mk = true) :
    ∀ l : List α, (upsertList key f mk l).find? key =
      some (match l.find? key with | some x => f x | none => mk) := by
  intro l
  induction l with
  | nil =>
    simp only [upsertList, List.find?_nil]
    exact List.find?_cons_of_pos _ hmk
  | cons x l ih =>
    by_cases hx : key x = true
    · simp only [upsertList, if_pos hx, List.find?_cons_of_pos _ hx,
        List.find?_cons_of_pos _ (hf x hx)]
    · rw [Bool.not_eq_true] at hx
      simp only [upsertList, hx, Bool.false_eq_true, if_false]
      rw [List.find?_cons_of_neg _ (by simp [hx]), List.find?_cons_of_neg _ (by simp [hx])]
      exact ih

/-- Lookups under a key disjoint from the upsert key are unaffected. -/
theorem find?_upsertList_ne {α : Type} (key key2 : α → Bool) (f : α → α) (mk : α)
    (hdisj : ∀ x, key2 x = true → key x = false)
    (hfk : ∀ x, key2 (f x) = key2 x) (hmk : key2 mk = false) :
    ∀ l : List α, (upsertList key f mk l).find? key2 = l.find? key2 := by
  intro l
  induction l with
  | nil =>
    simp only [upsertList, List.find?_nil]
    exact List.find?_cons_of_neg _ (by simp [hmk])
  | cons x l ih =>
    by_cases hx : key x = true
    · have hx2 : key2 x = false := by
        by_contra hc
        rw [Bool.not_eq_false] at hc
        rw [hdisj x hc] at hx
        exact Bool.false_ne_true hx
      have hfx2 : key2 (f x) = false := by rw [hfk]; exact hx2
      simp only [upsertList, if_pos hx]
      rw [List.find?_cons_of_neg _ (by simp [hfx2]), List.find?_cons_of_neg _ (by simp [hx2])]
    · rw [Bool.not_eq_true] at hx
      simp only [upsertList, hx, Bool.false_eq_true, if_false]
      by_cases hx2 : key2 x = true
      · rw [List.find?_cons_of_pos _ hx2, List.find?_cons_of_pos _ hx2]
      · rw [Bool.not_eq_true] at hx2
        rw [List.find?_cons_of_neg _ (by simp [hx2]), List.find?_cons_of_neg _ (by simp [hx2]), ih]

/-- Coarse membership bound for an upsert result. -/
theorem mem_upsertList {α : Type} (key : α → Bool) (f : α → α) (mk : α) :
    ∀ (l : List α) (y : α), y ∈ upsertList key f mk l →
      y = mk ∨ y ∈ l ∨ ∃ x ∈ l, y = f x := by
  intro l
  induction l with
  | nil =>
    intro y hy
    simp only [upsertList, List.mem_singleton] at hy
    exact Or.inl hy
  | cons x l ih =>
    intro y hy
    by_cases hx : key x = true
    · simp only [upsertList, if_pos hx, List.mem_cons] at hy
      rcases hy with hy | hy
      · exact Or.inr (Or.inr ⟨x, List.mem_cons_self _ _, hy⟩)
      · exact Or.inr (Or.inl (List.mem_cons_of_mem _ hy))
    · rw [Bool.not_eq_true] at hx
      simp only [upsertList, hx, Bool.false_eq_true, if_false, List.mem_cons] at hy
      rcases hy with hy | hy
      · exact Or.inr (Or.inl (by simp [hy]))
      · rcases ih y hy with h | h | ⟨z, hz, hfz⟩
        · exact Or.inl h
        · exact Or.inr (Or.inl (List.mem_cons_of_mem _ h))
        · exact Or.inr (Or.inr ⟨z, List.mem_cons_of_mem _ hz, hfz⟩)

/-- Positional decomposition of an upsert around the first key match. -/
theorem upsertList_decomp {α : Type} (key : α → Bool) (f : α → α) (mk : α) :
    ∀ (l : List α) (x : α), l.find? key = some x →
      ∃ l1 l2, l = l1 ++ x :: l2 ∧ (∀ z ∈ l1, key z = false) ∧
        upsertList key f mk l = l1 ++ f x :: l2 := by
  intro l
  induction l with
  | nil => intro x hx; simp at hx
  | cons a l ih =>
    intro x hx
    by_cases ha : key a = true
    · rw [List.find?_cons_of_pos _ ha] at hx
      injection hx with hx
      subst hx
      exact ⟨[], l, by simp, by simp, by simp [upsertList, ha]⟩
    · rw [Bool.not_eq_true] at ha
      rw [List.find?_cons_of_neg _ (by simp [ha])] at hx
      rcases ih x hx with ⟨l1, l2, hdec, hkeys, hres⟩
      refine ⟨a :: l1, l2, by simp [hdec], ?_, ?_⟩
      · intro z hz
        rcases List.mem_cons.mp hz with hz | hz
        · subst hz; exact ha
        · exact hkeys z hz
      · simp only [upsertList, ha, Bool.false_eq_true, if_false, hres, List.cons_append]

/-- A status write leaves the calls table untouched. -/
theorem sessionsUpdateStatus_calls (sid : String) (st : SessionStatus) (now : Nat)
    (s : Store) : (sessionsUpdateStatus sid st now s).calls = s.calls := rfl

/-- A session field update leaves the calls table untouched. -/
theorem sessionsUpdate_calls (sid : String) (u : SessionUpd) (now : Nat) (s : Store) :
    (sessionsUpdate sid u now s).calls = s.calls := by
  unfold sessionsUpdate
  by_cases h : u.hasField
  · simp [h]
  · simp [Bool.not_eq_true] at h
    simp [h]

/-- A call update leaves the sessions table untouched. -/
theorem callsUpdate_sessions (sid shop : String) (u : CallUpd) (now : Nat)
    (s : Store) : (callsUpdate sid shop u now s).sessions = s.sessions := by
  unfold callsUpdate
  by_cases h : u.hasField
  · simp [h]
  · simp [Bool.not_eq_true] at h
    simp [h]

/-- A successful call creation leaves the sessions table untouched. -/
theorem callsCreate_sessions (it : CallItem) (s s1 : Store)
    (h : callsCreate it s = .ok s1) : s1.sessions = s.sessions := by
  unfold callsCreate at h
  cases hb : s.calls.any (callKey it.session_id it.shop_id) with
  | true => rw [hb] at h; simp at h
  | false =>
    rw [hb] at h
    simp at h
    rw [← h]

/-- Reading the written session after a status write: the old attributes with the
new status (an absent session is created with only the key, status and timestamp). -/
theorem getSession_updateStatus (sid : String) (st : SessionStatus) (now : Nat)
    (s : Store) :
    getSession (sessionsUpdateStatus sid st now s) sid =
      some { (getSession s sid).getD (emptySessionItem sid) with
             status := some st, updated_at := some now } := by
  unfold getSession sessionsUpdateStatus
  rw [find?_upsertList_eq]
  · cases h : s.sessions.find? (sessionKey sid) with
    | none => simp [getSession, h, sessionKey, emptySessionItem]
    | some x => simp [getSession, h]
  · intro x hx
    simpa [sessionKey] using hx
  · simp [sessionKey, emptySessionItem]

/-- A status write does not affect other sessions. -/
theorem getSession_updateStatus_ne (sid sid2 : String) (st : SessionStatus)
    (now : Nat) (s : Store) (h : sid2 ≠ sid) :
    getSession (sessionsUpdateStatus sid st now s) sid2 = getSession s sid2 := by
  unfold getSession sessionsUpdateStatus
  apply find?_upsertList_ne
  · intro x hx
    simp only [sessionKey, beq_iff_eq] at hx ⊢
    rw [hx]
    simpa using h
  · intro x
    simp [sessionKey]
  · simp only [sessionKey, emptySessionItem, beq_iff_eq]
    simpa using fun hc => h hc.symm

/-- Reading the written session after a field update with a defined field. -/
theorem getSession_update (sid : String) (u : SessionUpd) (now : Nat) (s : Store)
    (hu : u.hasField = true) :
    getSession (sessionsUpdate sid u now s) sid =
      some (applySessionUpd u now ((getSession s sid).getD (emptySessionItem sid))) := by
  unfold getSession sessionsUpdate
  simp only [hu, Bool.not_true, Bool.false_eq_true, if_false]
  rw [find?_upsertList_eq]
  · cases h : s.sessions.find? (sessionKey sid) with
    | none => simp [getSession, h]
    | some x => simp [getSession, h]
  · intro x hx
    simpa [sessionKey, applySessionUpd] using hx
  · simp [sessionKey, applySessionUpd, emptySessionItem]

/-- A session field update does not affect other sessions. -/
theorem getSession_update_ne (sid sid2 : String) (u : SessionUpd) (now : Nat)
    (s : Store) (h : sid2 ≠ sid) :
    getSession (sessionsUpdate sid u now s) sid2 = getSession s sid2 := by
  unfold getSession sessionsUpdate
  by_cases hu : u.hasField
  · simp only [hu, Bool.not_true, Bool.false_eq_true, if_false]
    apply find?_upsertList_ne
    · intro x hx
      simp only [sessionKey, beq_iff_eq] at hx ⊢
      rw [hx]
      simpa using h
    · intro x
      simp [sessionKey, applySessionUpd]
    · simp only [sessionKey, applySessionUpd, emptySessionItem, beq_iff_eq]
      simpa using fun hc => h hc.symm
  · simp [Bool.not_eq_true] at hu
    simp [hu]

/-- Reading the written call after a call update with a defined field. -/
theorem getCall_callsUpdate (sid shop : String) (u : CallUpd) (now : Nat) (s : Store)
    (hu : u.hasField = true) :
    getCall (callsUpdate sid shop u now s) sid shop =
      some (applyCallUpd u now ((getCall s sid shop).getD (emptyCallItem sid shop))) := by
  unfold getCall callsUpdate
  simp only [hu, Bool.not_true, Bool.false_eq_true, if_false]
  rw [find?_upsertList_eq]
  · cases h : s.calls.find? (callKey sid shop) with
    | none => simp [getCall, h]
    | some x => simp [getCall, h]
  · intro x hx
    simpa [callKey, applyCallUpd] using hx
  · simp [callKey, applyCallUpd, emptyCallItem]

/-- A call update does not affect other call keys. -/
theorem getCall_callsUpdate_ne (sid shop sid2 shop2 : String) (u : CallUpd)
    (now : Nat) (s : Store) (h : sid2 ≠ sid ∨ shop2 ≠ shop) :
    getCall (callsUpdate sid shop u now s) sid2 shop2 = getCall s sid2 shop2 := by
  unfold getCall callsUpdate
  by_cases hu : u.hasField
  · simp only [hu, Bool.not_true, Bool.false_eq_true, if_false]
    apply find?_upsertList_ne
    · intro x hx
      simp only [callKey, Bool.and_eq_true, beq_iff_eq] at hx
      simp only [callKey, Bool.and_eq_false_iff, beq_eq_false_iff_ne]
      rcases h with h | h
      · exact Or.inl (by rw [hx.1]; exact h)
      · exact Or.inr (by rw [hx.2]; exact h)
    · intro x
      simp [callKey, applyCallUpd]
    · simp only [callKey, applyCallUpd, emptyCallItem, Bool.and_eq_false_iff,
        beq_eq_false_iff_ne]
      rcases h with h | h
      · exact Or.inl fun hc => h hc.symm
      · exact Or.inr fun hc => h hc.symm
  · simp [Bool.not_eq_true] at hu
    simp [hu]

/-- A call creation does not affect other call keys. -/
theorem getCall_callsCreate_ne (it : CallItem) (sid2 shop2 : String) (s s1 : Store)
    (h : sid2 ≠ it.session_id ∨ shop2 ≠ it.shop_id)
    (hok : callsCreate it s = .ok s1) :
    getCall s1 sid2 shop2 = getCall s sid2 shop2 := by
  unfold callsCreate at hok
  cases hb : s.calls.any (callKey it.session_id it.shop_id) with
  | true => rw [hb] at hok; simp at hok
  | false =>
    rw [hb] at hok
    simp at hok
    rw [← hok]
    unfold getCall
    simp only
    rw [List.find?_append]
    cases hf : s.calls.find? (callKey sid2 shop2) with
    | some x => simp
    | none =>
      simp only [Option.none_or]
      rw [List.find?_cons_of_neg, List.find?_nil]
      simp only [callKey, Bool.and_eq_true, beq_iff_eq, not_and]
      intro h1
      rcases h with hh | hh
      · exact absurd h1.symm hh
      · intro h2
        exact hh h2.symm

/-- Reading the created call after a successful creation. -/
theorem getCall_callsCreate (it : CallItem) (s s1 : Store)
    (habs : getCall s it.session_id it.shop_id = none)
    (hok : callsCreate it s = .ok s1) :
    getCall s1 it.session_id it.shop_id = some it := by
  unfold callsCreate at hok
  cases hb : s.calls.any (callKey it.session_id it.shop_id) with
  | true => rw [hb] at hok; simp at hok
  | false =>
    rw [hb] at hok
    simp at hok
    rw [← hok]
    unfold getCall
    simp only
    rw [List.find?_append]
    unfold getCall at habs
    rw [habs]
    simp only [Option.none_or]
    rw [List.find?_cons_of_pos]
    simp [callKey]

/-- Creation succeeds exactly when the key is absent. -/
theorem callsCreate_of_absent (it : CallItem) (s : Store)
    (habs : getCall s it.session_id it.shop_id = none) :
    callsCreate it s = .ok { s with calls := s.calls ++ [it] } := by
  unfold callsCreate
  have : s.calls.any (callKey it.session_id it.shop_id) = false := by
    rw [List.any_eq_false]
    intro x hx
    intro hk
    unfold getCall at habs
    have := List.find?_eq_none.mp habs x hx
    exact this hk
  simp [this]

/-- Trace counts add over concatenation. -/
theorem synthCount_append (a b : List Step) :
    synthCount (a ++ b) = synthCount a + synthCount b := by
  unfold synthCount
  exact List.countP_append _ _ _

/-- Report generation only writes session fields: the calls table is unchanged. -/
theorem generateFinalReport_calls (now : Nat) (orc : Except String Report)
    (sid : String) (calls : List CallItem) (s : Store) :
    ((generateFinalReport now orc sid calls s).1.1).calls = s.calls := by
  unfold generateFinalReport
  cases hs : getSession s sid with
  | none => rfl
  | some sess =>
    by_cases hcc : (calls.filter (fun c => c.status == some .COMPLETED)).isEmpty
    · simp only [hcc, if_true]
      exact sessionsUpdate_calls _ _ _ _
    · simp only [hcc, Bool.false_eq_true, if_false]
      cases sess.shops with
      | none => rfl
      | some shops =>
        cases orc with
        | error e => rfl
        | ok rpt => exact sessionsUpdate_calls _ _ _ _

/-- Report generation emits no synthesis-trigger action of its own. -/
theorem generateFinalReport_synth (now : Nat) (orc : Except String Report)
    (sid : String) (calls : List CallItem) (s : Store) :
    synthCount (generateFinalReport now orc sid calls s).1.2 = 0 := by
  unfold generateFinalReport
  cases hs : getSession s sid with
  | none => rfl
  | some sess =>
    by_cases hcc : (calls.filter (fun c => c.status == some .COMPLETED)).isEmpty
    · simp [hcc, synthCount]
    · simp only [hcc, Bool.false_eq_true, if_false]
      cases sess.shops with
      | none => rfl
      | some shops =>
        cases orc with
        | error e => rfl
        | ok rpt => simp [synthCount]

/-- The completion check no-ops when some call is non-terminal. -/
theorem checkSessionCompletion_noop (now : Nat) (orc : Except String Report)
    (sid : String) (s : Store) (h : allTerminal s sid = false) :
    checkSessionCompletion now orc sid s = (s, []) := by
  unfold checkSessionCompletion
  unfold allTerminal at h
  simp [h]

/-- The completion check only writes session records: the calls table is unchanged. -/
theorem checkSessionCompletion_calls (now : Nat) (orc : Except String Report)
    (sid : String) (s : Store) :
    ((checkSessionCompletion now orc sid s).1).calls = s.calls := by
  cases hall : allTerminal s sid with
  | false => rw [checkSessionCompletion_noop now orc sid s hall]
  | true =>
    unfold checkSessionCompletion
    unfold allTerminal at hall
    rw [if_pos hall]
    cases hgen : generateFinalReport now orc sid (getBySession s sid)
        (sessionsUpdateStatus sid .SUMMARIZING now s) with
    | mk tr res =>
      cases tr with
      | mk s2 t2 =>
        have hc2 : s2.calls = s.calls := by
          have hh := generateFinalReport_calls now orc sid (getBySession s sid)
            (sessionsUpdateStatus sid .SUMMARIZING now s)
          rw [hgen] at hh
          simpa [sessionsUpdateStatus_calls] using hh
        cases res with
        | ok u =>
          cases u
          simp only [hgen]
          simpa [sessionsUpdateStatus_calls] using hc2
        | error e =>
          simp only [hgen]
          simpa [sessionsUpdateStatus_calls] using hc2

/-- The completion check fires the synthesis trigger exactly when every call of the
session is terminal, and then exactly once per invocation. -/
theorem checkSessionCompletion_synthCount (now : Nat) (orc : Except String Report)
    (sid : String) (s : Store) :
    synthCount (checkSessionCompletion now orc sid s).2 =
      if allTerminal s sid then 1 else 0 := by
  cases hall : allTerminal s sid with
  | false =>
    rw [checkSessionCompletion_noop now orc sid s hall]
    simp [synthCount]
  | true =>
    unfold checkSessionCompletion
    have hall2 : (getBySession s sid).all (fun c => isTerminalStatus c.status) = true := hall
    rw [if_pos hall2]
    cases hgen : generateFinalReport now orc sid (getBySession s sid)
        (sessionsUpdateStatus sid .SUMMARIZING now s) with
    | mk tr res =>
      cases tr with
      | mk s2 t2 =>
        have ht2 : synthCount t2 = 0 := by
          have hh := generateFinalReport_synth now orc sid (getBySession s sid)
            (sessionsUpdateStatus sid .SUMMARIZING now s)
          rw [hgen] at hh
          exact hh
        unfold synthCount at ht2
        cases res with
        | ok u =>
          cases u
          simp only [hgen]
          simp [synthCount, List.countP_cons, List.countP_append, ht2]
        | error e =>
          simp only [hgen]
          simp [synthCount, List.countP_cons, List.countP_append, ht2]

/-- Lookup depends only on the calls table. -/
theorem getCall_congr_calls (s t : Store) (h : s.calls = t.calls) (sid shop : String) :
    getCall s sid shop = getCall t sid shop := by
  unfold getCall
  rw [h]

/-- Session query depends only on the calls table. -/
theorem getBySession_congr_calls (s t : Store) (h : s.calls = t.calls) (sid : String) :
    getBySession s sid = getBySession t sid := by
  unfold getBySession
  rw [h]

/-- Terminality of a session's calls depends only on the calls table. -/
theorem allTerminal_congr_calls (s t : Store) (h : s.calls = t.calls) (sid : String) :
    allTerminal s sid = allTerminal t sid := by
  unfold allTerminal
  rw [getBySession_congr_calls s t h]

/-- Rewriting the first match with a fixed point leaves the list unchanged. -/
theorem upsertList_id {α : Type} (key : α → Bool) (f : α → α) (mk : α) (l : List α)
    (x : α) (hfind : l.find? key = some x) (hfx : f x = x) :
    upsertList key f mk l = l := by
  rcases upsertList_decomp key f mk l x hfind with ⟨l1, l2, hdec, _, hres⟩
  rw [hres, hfx, ← hdec]

/-- Overriding twice with the same update value is overriding once. -/
theorem overrideOpt_idem {α : Type} (o fallback : Option α) :
    overrideOpt o (overrideOpt o fallback) = overrideOpt o fallback := by
  cases o <;> rfl

/-- Applying the same SET expression twice with the same clock is the same as
applying it once (DynamoDB SET updates are idempotent). -/
theorem applyCallUpd_idem (u : CallUpd) (now : Nat) (x : CallItem) :
    applyCallUpd u now (applyCallUpd u now x) = applyCallUpd u now x := by
  unfold applyCallUpd
  simp only [overrideOpt_idem]

/-- The handler acknowledges and does nothing for events without usable metadata. -/
theorem webhookPOST_noMeta (now : Nat) (orc : Except String Report) (ev : WEvent)
    (s : Store)
    (h : (metaPresent ev.meta_session_id && metaPresent ev.meta_shop_id) = false) :
    webhookPOST now orc ev s = ((s, []), .receivedWarning) := by
  unfold webhookPOST
  rw [h]
  rfl

/-- Branch equation for a well-correlated call.started event. -/
theorem webhookPOST_callStarted (now : Nat) (orc : Except String Report) (ev : WEvent)
    (s : Store) (sid shop : String) (ht : ev.wtype = .callStarted)
    (h1 : ev.meta_session_id = some sid) (h2 : sid ≠ "")
    (h3 : ev.meta_shop_id = some shop) (h4 : shop ≠ "") :
    webhookPOST now orc ev s =
      ((callsUpdate sid shop (startedUpd ev) now s,
        [⟨.callWrite sid shop, callsUpdate sid shop (startedUpd ev) now s⟩]),
       .received) := by
  unfold webhookPOST
  rw [h1, h3, ht]
  simp [metaPresent, h2, h4]

/-- Branch equation for a well-correlated call.ended event. -/
theorem webhookPOST_callEnded (now : Nat) (orc : Except String Report) (ev : WEvent)
    (s : Store) (sid shop : String) (ht : ev.wtype = .callEnded)
    (h1 : ev.meta_session_id = some sid) (h2 : sid ≠ "")
    (h3 : ev.meta_shop_id = some shop) (h4 : shop ≠ "") :
    webhookPOST now orc ev s =
      (((checkSessionCompletion now orc sid (callsUpdate sid shop (endedUpd ev) now s)).1,
        ⟨.callWrite sid shop, callsUpdate sid shop (endedUpd ev) now s⟩ ::
          (checkSessionCompletion now orc sid (callsUpdate sid shop (endedUpd ev) now s)).2),
       .received) := by
  unfold webhookPOST
  rw [h1, h3, ht]
  simp [metaPresent, h2, h4]

/-- Branch equation for a well-correlated call.failed event. -/
theorem webhookPOST_callFailed (now : Nat) (orc : Except String Report) (ev : WEvent)
    (s : Store) (sid shop : String) (ht : ev.wtype = .callFailed)
    (h1 : ev.meta_session_id = some sid) (h2 : sid ≠ "")
    (h3 : ev.meta_shop_id = some shop) (h4 : shop ≠ "") :
    webhookPOST now orc ev s =
      (((checkSessionCompletion now orc sid (callsUpdate sid shop (failedUpd ev) now s)).1,
        ⟨.callWrite sid shop, callsUpdate sid shop (failedUpd ev) now s⟩ ::
          (checkSessionCompletion now orc sid (callsUpdate sid shop (failedUpd ev) now s)).2),
       .received) := by
  unfold webhookPOST
  rw [h1, h3, ht]
  simp [metaPresent, h2, h4]

/-- C10: invoking checkSessionCompletion on a session with zero call records treats
the empty call set as vacuously all-terminal: it transitions the session to
SUMMARIZING, persists the minimal no-quotes report (empty quotes list, null best
picks), and transitions to DONE. -/
theorem checkSessionCompletion_zero_calls (now : Nat) (orc : Except String Report)
    (sid : String) (s : Store) (sess : SessionItem)
    (hcalls : getBySession s sid = [])
    (hsess : getSession s sid = some sess) :
    (∃ it, getSession (checkSessionCompletion now orc sid s).1 sid = some it ∧
      it.status = some .DONE ∧ it.report = some minimalNoQuotesReport) ∧
    ((checkSessionCompletion now orc sid s).2).map Step.act =
      [.sessionStatusWrite sid .SUMMARIZING, .synthTrigger sid,
       .sessionFieldsWrite sid, .sessionStatusWrite sid .DONE] ∧
    minimalNoQuotesReport.quotes = [] ∧
    minimalNoQuotesReport.best_pick =
      { by_price := none, by_time := none, overall := none } := by
  have hs1 : getSession (sessionsUpdateStatus sid .SUMMARIZING now s) sid =
      some { sess with status := some .SUMMARIZING, updated_at := some now } := by
    rw [getSession_updateStatus, hsess]
    rfl
  have hgen : generateFinalReport now orc sid (getBySession s sid)
      (sessionsUpdateStatus sid .SUMMARIZING now s) =
      ((sessionsUpdate sid { report := some minimalNoQuotesReport } now
          (sessionsUpdateStatus sid .SUMMARIZING now s),
        [⟨.sessionFieldsWrite sid,
          sessionsUpdate sid { report := some minimalNoQuotesReport } now
            (sessionsUpdateStatus sid .SUMMARIZING now s)⟩]), .ok ()) := by
    unfold generateFinalReport
    rw [hs1, hcalls]
    rfl
  have hall : (getBySession s sid).all (fun c => isTerminalStatus c.status) = true := by
    rw [hcalls]
    rfl
  have hfin : getSession (sessionsUpdateStatus sid .DONE now
      (sessionsUpdate sid { report := some minimalNoQuotesReport } now
        (sessionsUpdateStatus sid .SUMMARIZING now s))) sid =
      some { sess with status := some SessionStatus.DONE, report := some minimalNoQuotesReport, updated_at := some now } := by
    rw [getSession_updateStatus, getSession_update _ _ _ _ (by rfl), hs1]
    rfl
  simp only [checkSessionCompletion, hall, if_true, hgen]
  exact ⟨⟨_, hfin, rfl, rfl⟩, rfl, rfl, rfl⟩

/-- Witness for C10 at a concrete store with one session and no call records. -/
theorem checkSessionCompletion_zero_calls_witness :
    (∃ it, getSession (checkSessionCompletion 5 (Except.error "model down") "s1"
        wStoreNoCalls).1 "s1" = some it ∧
      it.status = some SessionStatus.DONE ∧ it.report = some minimalNoQuotesReport) ∧
    ((checkSessionCompletion 5 (Except.error "model down") "s1" wStoreNoCalls).2).map
        Step.act =
      [.sessionStatusWrite "s1" .SUMMARIZING, .synthTrigger "s1",
       .sessionFieldsWrite "s1", .sessionStatusWrite "s1" .DONE] ∧
    minimalNoQuotesReport.quotes = [] ∧
    minimalNoQuotesReport.best_pick =
      { by_price := none, by_time := none, overall := none } :=
  checkSessionCompletion_zero_calls 5 (Except.error "model down") "s1" wStoreNoCalls
    (mkCreatedSession wInput 0) rfl rfl

/-- A SET update always carrying a status has a defined field. -/
theorem startedUpd_hasField (ev : WEvent) : (startedUpd ev).hasField = true := by
  simp [CallUpd.hasField, startedUpd]

/-- The call.ended update always carries a status field. -/
theorem endedUpd_hasField (ev : WEvent) : (endedUpd ev).hasField = true := by
  simp [CallUpd.hasField, endedUpd]

/-- The call.failed update always carries a status field. -/
theorem failedUpd_hasField (ev : WEvent) : (failedUpd ev).hasField = true := by
  simp [CallUpd.hasField, failedUpd]

/-- C3 (counterexample): on a store whose (s1, A) call is COMPLETED, processing a
subsequently delivered call.started event reverts the stored status to IN_PROGRESS —
terminal statuses are not sticky under the unconditional last-write-wins update. -/
theorem callStarted_reverts_terminal_cex :
    getCall wStoreTerminal "s1" "A" = some wCallDoneA ∧
    wCallDoneA.status = some CallStatus.COMPLETED ∧
    getCall (webhookPOST 7 (Except.error "unused") wStartedEvA wStoreTerminal).1.1
        "s1" "A" =
      some { wCallDoneA with status := some CallStatus.IN_PROGRESS, vapi_call_id := some "vapi-1", updated_at := some 7 } := by
  exact ⟨rfl, rfl, rfl⟩

/-- C3 (amended): processing a well-correlated call.started event unconditionally
writes status IN_PROGRESS on the (session, shop) record, whatever status — including
a terminal one — was stored before. -/
theorem callStarted_sets_in_progress (now : Nat) (orc : Except String Report)
    (ev : WEvent) (s : Store) (sid shop : String) (ht : ev.wtype = .callStarted)
    (h1 : ev.meta_session_id = some sid) (h2 : sid ≠ "")
    (h3 : ev.meta_shop_id = some shop) (h4 : shop ≠ "") :
    ∃ it, getCall (webhookPOST now orc ev s).1.1 sid shop = some it ∧
      it.status = some CallStatus.IN_PROGRESS := by
  rw [webhookPOST_callStarted now orc ev s sid shop ht h1 h2 h3 h4]
  exact ⟨_, getCall_callsUpdate sid shop (startedUpd ev) now s (startedUpd_hasField ev), rfl⟩

/-- Witness for the amended C3 at a concrete terminal store. -/
theorem callStarted_sets_in_progress_witness :
    ∃ it, getCall (webhookPOST 7 (Except.error "unused") wStartedEvA
        wStoreTerminal).1.1 "s1" "A" = some it ∧
      it.status = some CallStatus.IN_PROGRESS :=
  callStarted_sets_in_progress 7 (Except.error "unused") wStartedEvA wStoreTerminal
    "s1" "A" rfl rfl (by decide) rfl (by decide)

/-- C7 (counterexample): a call.ended event correlated to (s1, ghost), a pair with no
call record, is not dropped without touching stored state: the unconditional update
creates a partial call record for the pair. -/
theorem webhook_unknown_call_creates_record_cex :
    getCall wStoreNoCalls "s1" "ghost" = none ∧
    getCall (webhookPOST 9 (Except.error "down") wGhostEv wStoreNoCalls).1.1
        "s1" "ghost" =
      some { emptyCallItem "s1" "ghost" with status := some CallStatus.COMPLETED, updated_at := some 9 } := by
  exact ⟨rfl, rfl⟩

/-- C7 (amended): an event without usable correlation metadata is acknowledged with a
success response and produces no state change.  An event naming a (session, shop)
pair with no call record never crashes the handler and is acknowledged, but the
unconditional update creates a new partial call record instead of dropping the
event. -/
theorem webhook_unmatched_events (now : Nat) (orc : Except String Report)
    (ev : WEvent) (s : Store) (sid shop : String) :
    ((metaPresent ev.meta_session_id && metaPresent ev.meta_shop_id) = false →
      webhookPOST now orc ev s = ((s, []), WResp.receivedWarning)) ∧
    (ev.meta_session_id = some sid → sid ≠ "" → ev.meta_shop_id = some shop →
      shop ≠ "" → getCall s sid shop = none →
      (ev.wtype = .callStarted ∨ ev.wtype = .callEnded ∨ ev.wtype = .callFailed) →
      (getCall (webhookPOST now orc ev s).1.1 sid shop).isSome = true ∧
      (webhookPOST now orc ev s).2 = WResp.received) := by
  constructor
  · intro h
    exact webhookPOST_noMeta now orc ev s h
  · intro h1 h2 h3 h4 _ ht
    rcases ht with ht | ht | ht
    · rw [webhookPOST_callStarted now orc ev s sid shop ht h1 h2 h3 h4]
      refine ⟨?_, rfl⟩
      rw [getCall_callsUpdate sid shop (startedUpd ev) now s (startedUpd_hasField ev)]
      rfl
    · rw [webhookPOST_callEnded now orc ev s sid shop ht h1 h2 h3 h4]
      refine ⟨?_, rfl⟩
      rw [getCall_congr_calls _ _
        (checkSessionCompletion_calls now orc sid
          (callsUpdate sid shop (endedUpd ev) now s)) sid shop]
      rw [getCall_callsUpdate sid shop (endedUpd ev) now s (endedUpd_hasField ev)]
      rfl
    · rw [webhookPOST_callFailed now orc ev s sid shop ht h1 h2 h3 h4]
      refine ⟨?_, rfl⟩
      rw [getCall_congr_calls _ _
        (checkSessionCompletion_calls now orc sid
          (callsUpdate sid shop (failedUpd ev) now s)) sid shop]
      rw [getCall_callsUpdate sid shop (failedUpd ev) now s (failedUpd_hasField ev)]
      rfl

/-- Witness for the amended C7 at concrete inputs for both scenarios. -/
theorem webhook_unmatched_events_witness :
    webhookPOST 9 (Except.error "down") wNoMetaEv wStoreNoCalls =
      ((wStoreNoCalls, []), WResp.receivedWarning) ∧
    (getCall (webhookPOST 9 (Except.error "down") wGhostEv wStoreNoCalls).1.1
        "s1" "ghost").isSome = true ∧
    (webhookPOST 9 (Except.error "down") wGhostEv wStoreNoCalls).2 =
      WResp.received := by
  refine ⟨?_, ?_, ?_⟩
  · exact (webhook_unmatched_events 9 (Except.error "down") wNoMetaEv wStoreNoCalls
      "" "").1 (by decide)
  · exact ((webhook_unmatched_events 9 (Except.error "down") wGhostEv wStoreNoCalls
      "s1" "ghost").2 rfl (by decide) rfl (by decide) rfl (Or.inr (Or.inl rfl))).1
  · exact ((webhook_unmatched_events 9 (Except.error "down") wGhostEv wStoreNoCalls
      "s1" "ghost").2 rfl (by decide) rfl (by decide) rfl (Or.inr (Or.inl rfl))).2

/-- Updating a key whose stored record is a fixed point of the SET expression leaves
the calls table unchanged. -/
theorem callsUpdate_calls_id (sid shop : String) (u : CallUpd) (now : Nat) (s : Store)
    (x : CallItem) (hfld : u.hasField = true) (hfind : getCall s sid shop = some x)
    (hfx : applyCallUpd u now x = x) :
    (callsUpdate sid shop u now s).calls = s.calls := by
  unfold callsUpdate
  simp only [hfld, Bool.not_true, Bool.false_eq_true, if_false]
  exact upsertList_id _ _ _ _ x hfind hfx

/-- C4 (counterexample): with one IN_PROGRESS call, delivering the same call.ended
event twice fires the report-synthesis trigger during the second delivery as well as
during the first — the duplicate delivery duplicates the downstream side effect
instead of being absorbed. -/
theorem callEnded_redelivery_cex :
    synthCount (webhookPOST 7 (Except.ok wReport) wEndedEvA wStoreOneCall).1.2 = 1 ∧
    synthCount (webhookPOST 7 (Except.ok wReport) wEndedEvA
      (webhookPOST 7 (Except.ok wReport) wEndedEvA wStoreOneCall).1.1).1.2 = 1 := by
  exact ⟨rfl, rfl⟩

/-- C4 (amended): re-delivering the same call.ended event (same clock value) leaves
the stored call record identical to the state after the first delivery and is
acknowledged without throwing; but the completion check runs again, so when all calls
are terminal after the first delivery the synthesis trigger fires again on the
duplicate instead of being suppressed. -/
theorem callEnded_redelivery (now : Nat) (orc : Except String Report) (ev : WEvent)
    (s : Store) (sid shop : String) (ht : ev.wtype = .callEnded)
    (h1 : ev.meta_session_id = some sid) (h2 : sid ≠ "")
    (h3 : ev.meta_shop_id = some shop) (h4 : shop ≠ "") :
    getCall (webhookPOST now orc ev (webhookPOST now orc ev s).1.1).1.1 sid shop =
      getCall (webhookPOST now orc ev s).1.1 sid shop ∧
    (webhookPOST now orc ev (webhookPOST now orc ev s).1.1).2 = WResp.received ∧
    (allTerminal (webhookPOST now orc ev s).1.1 sid = true →
      synthCount (webhookPOST now orc ev (webhookPOST now orc ev s).1.1).1.2 = 1) := by
  have hfld := endedUpd_hasField ev
  rw [webhookPOST_callEnded now orc ev s sid shop ht h1 h2 h3 h4]
  dsimp only
  rw [webhookPOST_callEnded now orc ev
    (checkSessionCompletion now orc sid (callsUpdate sid shop (endedUpd ev) now s)).1
    sid shop ht h1 h2 h3 h4]
  dsimp only
  have hget1 : getCall (checkSessionCompletion now orc sid
      (callsUpdate sid shop (endedUpd ev) now s)).1 sid shop =
      some (applyCallUpd (endedUpd ev) now
        ((getCall s sid shop).getD (emptyCallItem sid shop))) := by
    rw [getCall_congr_calls _ _
      (checkSessionCompletion_calls now orc sid
        (callsUpdate sid shop (endedUpd ev) now s)) sid shop]
    exact getCall_callsUpdate sid shop (endedUpd ev) now s hfld
  have hcalls2 : (callsUpdate sid shop (endedUpd ev) now
      (checkSessionCompletion now orc sid
        (callsUpdate sid shop (endedUpd ev) now s)).1).calls =
      ((checkSessionCompletion now orc sid
        (callsUpdate sid shop (endedUpd ev) now s)).1).calls :=
    callsUpdate_calls_id sid shop (endedUpd ev) now _ _ hfld hget1
      (applyCallUpd_idem (endedUpd ev) now _)
  refine ⟨?_, rfl, ?_⟩
  · rw [getCall_congr_calls _ _
      (checkSessionCompletion_calls now orc sid
        (callsUpdate sid shop (endedUpd ev) now
          (checkSessionCompletion now orc sid
            (callsUpdate sid shop (endedUpd ev) now s)).1)) sid shop]
    rw [getCall_congr_calls _ _ hcalls2 sid shop]
  · intro hall
    have hterm2 : allTerminal (callsUpdate sid shop (endedUpd ev) now
        (checkSessionCompletion now orc sid
          (callsUpdate sid shop (endedUpd ev) now s)).1) sid = true := by
      rw [allTerminal_congr_calls _ _ hcalls2]
      exact hall
    have hcnt := checkSessionCompletion_synthCount now orc sid
      (callsUpdate sid shop (endedUpd ev) now
        (checkSessionCompletion now orc sid
          (callsUpdate sid shop (endedUpd ev) now s)).1)
    rw [hterm2] at hcnt
    simp only [if_true] at hcnt
    simp [synthCount, List.countP_cons] at hcnt ⊢
    exact hcnt

/-- Witness for the amended C4 at a concrete one-call store. -/
theorem callEnded_redelivery_witness :
    getCall (webhookPOST 7 (Except.ok wReport) wEndedEvA
        (webhookPOST 7 (Except.ok wReport) wEndedEvA wStoreOneCall).1.1).1.1
        "s1" "A" =
      getCall (webhookPOST 7 (Except.ok wReport) wEndedEvA wStoreOneCall).1.1
        "s1" "A" ∧
    (webhookPOST 7 (Except.ok wReport) wEndedEvA
      (webhookPOST 7 (Except.ok wReport) wEndedEvA wStoreOneCall).1.1).2 =
      WResp.received ∧
    synthCount (webhookPOST 7 (Except.ok wReport) wEndedEvA
      (webhookPOST 7 (Except.ok wReport) wEndedEvA wStoreOneCall).1.1).1.2 = 1 := by
  have h := callEnded_redelivery 7 (Except.ok wReport) wEndedEvA wStoreOneCall
    "s1" "A" rfl rfl (by decide) rfl (by decide)
  exact ⟨h.1, h.2.1, h.2.2 (by decide)⟩

/-- The SET expression does not touch the composite key. -/
theorem applyCallUpd_session_id (u : CallUpd) (now : Nat) (x : CallItem) :
    (applyCallUpd u now x).session_id = x.session_id := rfl

/-- The SET expression does not touch the composite key. -/
theorem applyCallUpd_shop_id (u : CallUpd) (now : Nat) (x : CallItem) :
    (applyCallUpd u now x).shop_id = x.shop_id := rfl

/-- Upserting a (sid, shop) key commutes with restricting the table to session sid:
on the restricted list the upsert key degenerates to the shop id. -/
theorem filter_upsertList_session (sid shop : String) (f : CallItem → CallItem)
    (mk : CallItem)
    (hfs : ∀ x, (f x).session_id = x.session_id)
    (hmk₁ : mk.session_id = sid) :
    ∀ l : List CallItem,
      (upsertList (callKey sid shop) f mk l).filter (fun c => c.session_id == sid) =
        upsertList (fun c => c.shop_id == shop) f mk
          (l.filter (fun c => c.session_id == sid)) := by
  intro l
  induction l with
  | nil =>
    simp only [upsertList, List.filter_nil]
    simp [List.filter, hmk₁]
  | cons x l ih =>
    by_cases hx : callKey sid shop x = true
    · have hsx : (x.session_id == sid) = true := by
        have hh := hx
        unfold callKey at hh
        exact (Bool.and_eq_true _ _ |>.mp hh).1
      have hshx : (x.shop_id == shop) = true := by
        have hh := hx
        unfold callKey at hh
        exact (Bool.and_eq_true _ _ |>.mp hh).2
      have hfsx : ((f x).session_id == sid) = true := by
        rw [hfs x]
        exact hsx
      simp only [upsertList, if_pos hx, List.filter_cons, hsx, hfsx, if_pos, hshx]
    · rw [Bool.not_eq_true] at hx
      simp only [upsertList, hx, Bool.false_eq_true, if_false]
      by_cases hsx : (x.session_id == sid) = true
      · have hshx : (x.shop_id == shop) = false := by
          unfold callKey at hx
          rcases Bool.and_eq_false_iff.mp hx with hh | hh

          · rw [hsx] at hh
            exact absurd hh (by simp)
          · exact hh
        simp only [List.filter_cons, hsx, if_pos]
        simp only [upsertList, hshx, Bool.false_eq_true, if_false]
        rw [← ih]
      · rw [Bool.not_eq_true] at hsx
        simp only [List.filter_cons, hsx, Bool.false_eq_true, if_false]
        rw [← ih]

/-- View of a call update on the session-restricted call list. -/
theorem getBySession_callsUpdate (sid shop : String) (u : CallUpd) (now : Nat)
    (s : Store) (hfld : u.hasField = true) :
    getBySession (callsUpdate sid shop u now s) sid =
      upsertList (fun c => c.shop_id == shop) (applyCallUpd u now)
        (applyCallUpd u now (emptyCallItem sid shop)) (getBySession s sid) := by
  unfold callsUpdate getBySession
  simp only [hfld, Bool.not_true, Bool.false_eq_true, if_false]
  exact filter_upsertList_session sid shop (applyCallUpd u now)
    (applyCallUpd u now (emptyCallItem sid shop))
    (fun x => applyCallUpd_session_id u now x) rfl s.calls

/-- In a list with pairwise distinct keys, any member is the first (and only) match
of its key. -/
theorem find?_of_mem_nodup_keys {α : Type} (g : α → String) (l : List α)
    (hnd : (l.map g).Nodup) (x : α) (hx : x ∈ l) (a : String) (ha : g x = a) :
    l.find? (fun y => g y == a) = some x := by
  induction l with
  | nil => simp at hx
  | cons y l ih =>
    rcases List.mem_cons.mp hx with hy | hy
    · subst hy
      apply List.find?_cons_of_pos
      simp [ha]
    · have hnd2 : (l.map g).Nodup := (List.nodup_cons.mp (by simpa using hnd)).2
      have hgy : (g y == a) = false := by
        by_contra hc
        rw [Bool.not_eq_false, beq_iff_eq] at hc
        have hmem : g x ∈ l.map g := List.mem_map_of_mem g hy
        rw [ha, ← hc] at hmem
        exact (List.nodup_cons.mp (by simpa using hnd)).1 hmem
      rw [List.find?_cons_of_neg _ (by simp [hgy])]
      exact ih hnd2 hy

/-- Processing a well-correlated terminal event is a terminal-status call update
followed by the completion check, acknowledged with success. -/
theorem webhookPOST_terminal_eq (now : Nat) (orc : Except String Report) (ev : WEvent)
    (s : Store) (sid : String) (h : termEv sid ev) :
    ∃ u : CallUpd, u.hasField = true ∧
      (∀ x : CallItem, isTerminalStatus (applyCallUpd u now x).status = true) ∧
      webhookPOST now orc ev s =
        (((checkSessionCompletion now orc sid
            (callsUpdate sid (shopOf ev) u now s)).1,
          ⟨.callWrite sid (shopOf ev), callsUpdate sid (shopOf ev) u now s⟩ ::
            (checkSessionCompletion now orc sid
              (callsUpdate sid (shopOf ev) u now s)).2),
         .received) := by
  obtain ⟨hk, h1, h2, h3, h4⟩ := h
  rcases hk with hk | hk
  · refine ⟨endedUpd ev, endedUpd_hasField ev, ?_, ?_⟩
    · intro x
      rfl
    · exact webhookPOST_callEnded now orc ev s sid (shopOf ev) hk h1 h2 h3 h4
  · refine ⟨failedUpd ev, failedUpd_hasField ev, ?_, ?_⟩
    · intro x
      rfl
    · exact webhookPOST_callFailed now orc ev s sid (shopOf ev) hk h1 h2 h3 h4

/-- Unfolding of sequential delivery on a cons cell. -/
theorem runWebhooks_cons (now : Nat) (orc : Except String Report) (ev : WEvent)
    (evs : List WEvent) (s : Store) :
    runWebhooks now orc (ev :: evs) s =
      ((runWebhooks now orc evs (webhookPOST now orc ev s).1.1).1,
       (webhookPOST now orc ev s).1.2 ++
         (runWebhooks now orc evs (webhookPOST now orc ev s).1.1).2) := by
  cases hw : webhookPOST now orc ev s with
  | mk a resp =>
    cases a with
    | mk s1 t1 =>
      cases hr : runWebhooks now orc evs s1 with
      | mk s2 t2 =>
        simp only [runWebhooks, hw, hr]

/-- C2 (amended): when every call record of the session is non-terminal and exactly
one well-correlated terminal event per call is delivered sequentially — in any order,
but with no duplicates — the report-synthesis trigger fires exactly once, on the
final event.  (The transition is an unconditional status write, not a compare-and-set;
exactly-once holds only for duplicate-free sequential delivery.) -/
theorem runWebhooks_synth_once (now : Nat) (orc : Except String Report)
    (sid : String) :
    ∀ (evs : List WEvent) (s : Store),
      (∀ ev ∈ evs, termEv sid ev) →
      (evs.map shopOf).Nodup →
      (∀ c ∈ getBySession s sid, isTerminalStatus c.status = false →
        c.shop_id ∈ evs.map shopOf) →
      (∀ ev ∈ evs, ∃ c ∈ getBySession s sid, c.shop_id = shopOf ev ∧
        isTerminalStatus c.status = false) →
      ((getBySession s sid).map CallItem.shop_id).Nodup →
      synthCount (runWebhooks now orc evs s).2 = if evs.isEmpty then 0 else 1 := by
  intro evs
  induction evs with
  | nil =>
    intro s _ _ _ _ _
    simp [runWebhooks, synthCount]
  | cons ev rest ih =>
    intro s hT hN hcov hex hK
    have hterm : termEv sid ev := hT ev (List.mem_cons_self _ _)
    obtain ⟨u, hufld, huterm, hw⟩ := webhookPOST_terminal_eq now orc ev s sid hterm
    obtain ⟨ca, hca_mem, hca_shop, hca_nt⟩ := hex ev (List.mem_cons_self _ _)
    have hfind : (getBySession s sid).find? (fun c => c.shop_id == shopOf ev) =
        some ca :=
      find?_of_mem_nodup_keys CallItem.shop_id _ hK ca hca_mem (shopOf ev) hca_shop
    obtain ⟨l1, l2, hdec, hl1, hres⟩ :=
      upsertList_decomp (fun c => c.shop_id == shopOf ev) (applyCallUpd u now)
        (applyCallUpd u now (emptyCallItem sid (shopOf ev))) (getBySession s sid)
        ca hfind
    have hview : getBySession (callsUpdate sid (shopOf ev) u now s) sid =
        l1 ++ applyCallUpd u now ca :: l2 := by
      rw [getBySession_callsUpdate sid (shopOf ev) u now s hufld, hres]
    have hmapdec : (getBySession s sid).map CallItem.shop_id =
        l1.map CallItem.shop_id ++ shopOf ev :: l2.map CallItem.shop_id := by
      rw [hdec]
      simp [hca_shop]
    have hKdec := hK
    rw [hmapdec] at hKdec
    have hnotl2 : shopOf ev ∉ l2.map CallItem.shop_id := by
      have h2 := (List.nodup_append.mp hKdec).2.1
      exact (List.nodup_cons.mp h2).1
    have hl1ne : ∀ z ∈ l1, z.shop_id ≠ shopOf ev := by
      intro z hz
      have := hl1 z hz
      simpa using this
    have hmap1 : (getBySession (callsUpdate sid (shopOf ev) u now s) sid).map
        CallItem.shop_id = (getBySession s sid).map CallItem.shop_id := by
      rw [hview, hdec]
      simp [applyCallUpd_shop_id]
    have hmem_new : ∀ c ∈ getBySession (callsUpdate sid (shopOf ev) u now s) sid,
        isTerminalStatus c.status = false → c ∈ l1 ∨ c ∈ l2 := by
      intro c hc hnt
      rw [hview] at hc
      rcases List.mem_append.mp hc with hc | hc
      · exact Or.inl hc
      · rcases List.mem_cons.mp hc with hc | hc
        · rw [hc] at hnt
          rw [huterm ca] at hnt
          exact absurd hnt (by simp)
        · exact Or.inr hc
    have hold_mem : ∀ c, c ∈ l1 ∨ c ∈ l2 → c ∈ getBySession s sid := by
      intro c hc
      rw [hdec]
      rcases hc with hc | hc
      · exact List.mem_append_left _ hc
      · exact List.mem_append_right _ (List.mem_cons_of_mem _ hc)
    cases rest with
    | nil =>
      have hallT : allTerminal (callsUpdate sid (shopOf ev) u now s) sid = true := by
        unfold allTerminal
        rw [List.all_eq_true]
        intro c hc
        by_contra hcf
        rw [Bool.not_eq_true] at hcf
        rcases hmem_new c hc hcf with hcl | hcl
        · have hcm := hcov c (hold_mem c (Or.inl hcl)) hcf
          simp only [List.map_cons, List.map_nil, List.mem_singleton] at hcm
          exact hl1ne c hcl hcm
        · have hcm := hcov c (hold_mem c (Or.inr hcl)) hcf
          simp only [List.map_cons, List.map_nil, List.mem_singleton] at hcm
          have : shopOf ev ∈ l2.map CallItem.shop_id := by
            rw [← hcm]
            exact List.mem_map_of_mem _ hcl
          exact hnotl2 this
      have hcnt := checkSessionCompletion_synthCount now orc sid
        (callsUpdate sid (shopOf ev) u now s)
      rw [hallT] at hcnt
      simp only [if_true] at hcnt
      rw [runWebhooks_cons, hw]
      unfold synthCount at hcnt ⊢
      simp [runWebhooks, List.countP_cons, List.countP_append, hcnt]
    | cons ev2 rest2 =>
      have hshop_ne : ∀ ev' ∈ ev2 :: rest2, shopOf ev' ≠ shopOf ev := by
        intro ev' hev' hcc
        have hnm := (List.nodup_cons.mp hN).1
        apply hnm
        rw [← hcc]
        exact List.mem_map_of_mem shopOf hev'
      obtain ⟨cb, hcb_mem, hcb_shop, hcb_nt⟩ := hex ev2 (by simp)
      have hcb_ne : cb ≠ ca := by
        intro hcc
        apply hshop_ne ev2 (List.mem_cons_self _ _)
        rw [← hcb_shop, hcc, hca_shop]
      have hcb_in12 : cb ∈ l1 ∨ cb ∈ l2 := by
        rw [hdec] at hcb_mem
        rcases List.mem_append.mp hcb_mem with hc | hc
        · exact Or.inl hc
        · rcases List.mem_cons.mp hc with hc | hc
          · exact absurd hc hcb_ne
          · exact Or.inr hc
      have hcb_new : cb ∈ getBySession (callsUpdate sid (shopOf ev) u now s) sid := by
        rw [hview]
        rcases hcb_in12 with hc | hc
        · exact List.mem_append_left _ hc
        · exact List.mem_append_right _ (List.mem_cons_of_mem _ hc)
      have hallF : allTerminal (callsUpdate sid (shopOf ev) u now s) sid = false := by
        rw [Bool.eq_false_iff]
        intro hall
        unfold allTerminal at hall
        rw [List.all_eq_true] at hall
        have := hall cb hcb_new
        rw [hcb_nt] at this
        exact absurd this (by simp)
      have hnoop := checkSessionCompletion_noop now orc sid
        (callsUpdate sid (shopOf ev) u now s) hallF
      have hih := ih (callsUpdate sid (shopOf ev) u now s)
        (fun ev' hev' => hT ev' (List.mem_cons_of_mem _ hev'))
        (List.nodup_cons.mp hN).2
        ?_ ?_ ?_
      · rw [runWebhooks_cons, hw]
        dsimp only
        rw [hnoop]
        simp only [List.isEmpty_cons] at hih ⊢
        unfold synthCount at hih ⊢
        simp only [Bool.false_eq_true, if_false] at hih
        simp [List.countP_cons, List.countP_append, hih]
      · intro c hc hcf
        rcases hmem_new c hc hcf with hcl | hcl
        · have hcm := hcov c (hold_mem c (Or.inl hcl)) hcf
          simp only [List.map_cons, List.mem_cons] at hcm
          rcases hcm with hcm | hcm
          · exact absurd hcm (hl1ne c hcl)
          · simpa using hcm
        · have hcm := hcov c (hold_mem c (Or.inr hcl)) hcf
          simp only [List.map_cons, List.mem_cons] at hcm
          rcases hcm with hcm | hcm
          · exfalso
            apply hnotl2
            rw [← hcm]
            exact List.mem_map_of_mem _ hcl
          · simpa using hcm
      · intro ev' hev'
        obtain ⟨c, hc_mem, hc_shop, hc_nt⟩ := hex ev' (List.mem_cons_of_mem _ hev')
        have hc_ne : c ≠ ca := by
          intro hcc
          apply hshop_ne ev' hev'
          rw [← hc_shop, hcc, hca_shop]
        have hc_in12 : c ∈ l1 ∨ c ∈ l2 := by
          rw [hdec] at hc_mem
          rcases List.mem_append.mp hc_mem with hc | hc
          · exact Or.inl hc
          · rcases List.mem_cons.mp hc with hc | hc
            · exact absurd hc hc_ne
            · exact Or.inr hc
        refine ⟨c, ?_, hc_shop, hc_nt⟩
        rw [hview]
        rcases hc_in12 with hc | hc
        · exact List.mem_append_left _ hc
        · exact List.mem_append_right _ (List.mem_cons_of_mem _ hc)
      · rw [hmap1]
        exact hK

/-- C2 (counterexample): with two calls, delivering ended(A), failed(B) and then a
duplicate failed(B) fires the report-synthesis trigger twice for the session: the
status transition is an unconditional write, not a conditional compare-and-set, so a
later evaluator repeats the transition instead of no-opping, and under duplicated
delivery synthesis is not exactly-once. -/
theorem runWebhooks_synth_twice_cex :
    synthCount (runWebhooks 7 (Except.ok wReport)
      [wEndedEvA, wFailedEvB, wFailedEvB] wStoreTwoCalls).2 = 2 := by
  rfl

/-- Witness for the amended C2 on a concrete two-call session with events delivered
failure-last. -/
theorem runWebhooks_synth_once_witness :
    synthCount (runWebhooks 7 (Except.ok wReport) [wEndedEvA, wFailedEvB]
      wStoreTwoCalls).2 =
      if ([wEndedEvA, wFailedEvB] : List WEvent).isEmpty then 0 else 1 :=
  runWebhooks_synth_once 7 (Except.ok wReport) "s1" [wEndedEvA, wFailedEvB]
    wStoreTwoCalls (by decide) (by decide) (by decide) (by decide) (by decide)

/-- Unfolding of the dispatch loop on a cons cell. -/
theorem dispatchAll_cons (cfg : EnvCfg) (orc : Oracles) (now : Nat) (sid : String)
    (t : Shop) (rest : List Shop) (s : Store) :
    dispatchAll cfg orc now sid (t :: rest) s =
      ((dispatchAll cfg orc now sid rest (dispatchShop cfg orc now sid t s).1).1,
       (dispatchShop cfg orc now sid t s).2 ++
         (dispatchAll cfg orc now sid rest (dispatchShop cfg orc now sid t s).1).2) := by
  cases hd : dispatchShop cfg orc now sid t s with
  | mk s1 t1 =>
    cases hr : dispatchAll cfg orc now sid rest s1 with
    | mk s2 t2 =>
      simp only [dispatchAll, hd, hr]

/-- Session lookups depend only on the sessions table. -/
theorem getSession_congr_sessions (s t : Store) (h : s.sessions = t.sessions)
    (sid : String) : getSession s sid = getSession t sid := by
  unfold getSession
  rw [h]

/-- Dispatching one shop only writes call records. -/
theorem dispatchShop_sessions (cfg : EnvCfg) (orc : Oracles) (now : Nat)
    (sid : String) (t : Shop) (s : Store) :
    ((dispatchShop cfg orc now sid t s).1).sessions = s.sessions := by
  unfold dispatchShop
  cases hg : enforceDemoMode cfg (orc.rand1 t.id) t.phone with
  | error e =>
    dsimp only
    exact callsUpdate_sessions _ _ _ _ _
  | ok target =>
    dsimp only
    cases hc : callsCreate (newPendingCall sid t.id target now) s with
    | error e =>
      dsimp only
      exact callsUpdate_sessions _ _ _ _ _
    | ok s1 =>
      dsimp only
      have hs1 := callsCreate_sessions _ _ _ hc
      cases hv : vapiCreateCall cfg orc t with
      | error e =>
        dsimp only
        rw [callsUpdate_sessions]
        exact hs1
      | ok pr =>
        cases pr with
        | mk dialed callId =>
          dsimp only
          rw [callsUpdate_sessions]
          exact hs1

/-- The dispatch loop only writes call records. -/
theorem dispatchAll_sessions (cfg : EnvCfg) (orc : Oracles) (now : Nat)
    (sid : String) :
    ∀ (shops : List Shop) (s : Store),
      ((dispatchAll cfg orc now sid shops s).1).sessions = s.sessions := by
  intro shops
  induction shops with
  | nil =>
    intro s
    rfl
  | cons t rest ih =>
    intro s
    rw [dispatchAll_cons]
    dsimp only
    rw [ih, dispatchShop_sessions]

/-- Dispatching one shop does not touch other call keys. -/
theorem dispatchShop_frame (cfg : EnvCfg) (orc : Oracles) (now : Nat) (sid : String)
    (t : Shop) (s : Store) (sid2 q : String) (h : sid2 ≠ sid ∨ q ≠ t.id) :
    getCall (dispatchShop cfg orc now sid t s).1 sid2 q = getCall s sid2 q := by
  unfold dispatchShop
  cases hg : enforceDemoMode cfg (orc.rand1 t.id) t.phone with
  | error e =>
    dsimp only
    exact getCall_callsUpdate_ne _ _ _ _ _ _ _ h
  | ok target =>
    dsimp only
    cases hc : callsCreate (newPendingCall sid t.id target now) s with
    | error e =>
      dsimp only
      exact getCall_callsUpdate_ne _ _ _ _ _ _ _ h
    | ok s1 =>
      dsimp only
      have hs1 := getCall_callsCreate_ne (newPendingCall sid t.id target now)
        sid2 q s s1 h hc
      cases hv : vapiCreateCall cfg orc t with
      | error e =>
        dsimp only
        rw [getCall_callsUpdate_ne _ _ _ _ _ _ _ h]
        exact hs1
      | ok pr =>
        cases pr with
        | mk dialed callId =>
          dsimp only
          rw [getCall_callsUpdate_ne _ _ _ _ _ _ _ h]
          exact hs1

/-- The dispatch loop does not touch keys outside the processed shop list. -/
theorem dispatchAll_frame (cfg : EnvCfg) (orc : Oracles) (now : Nat) (sid : String) :
    ∀ (shops : List Shop) (s : Store) (sid2 q : String),
      (∀ t ∈ shops, sid2 ≠ sid ∨ q ≠ t.id) →
      getCall (dispatchAll cfg orc now sid shops s).1 sid2 q = getCall s sid2 q := by
  intro shops
  induction shops with
  | nil =>
    intro s sid2 q _
    rfl
  | cons t rest ih =>
    intro s sid2 q h
    rw [dispatchAll_cons]
    dsimp only
    rw [ih _ sid2 q (fun t2 ht2 => h t2 (List.mem_cons_of_mem _ ht2))]
    exact dispatchShop_frame cfg orc now sid t s sid2 q (h t (List.mem_cons_self _ _))

/-- Dispatching a shop whose key is absent leaves exactly the per-shop outcome
record, a function of that shop's own data and oracle answers only. -/
theorem dispatchShop_outcome (cfg : EnvCfg) (orc : Oracles) (now : Nat)
    (sid : String) (t : Shop) (s : Store)
    (habs : getCall s sid t.id = none) :
    getCall (dispatchShop cfg orc now sid t s).1 sid t.id =
      some (dispatchOutcome cfg orc now sid t) := by
  unfold dispatchShop dispatchOutcome
  cases hg : enforceDemoMode cfg (orc.rand1 t.id) t.phone with
  | error e =>
    dsimp only
    rw [getCall_callsUpdate _ _ _ _ _ (by simp [CallUpd.hasField]), habs]
    rfl
  | ok target =>
    dsimp only
    have hok := callsCreate_of_absent (newPendingCall sid t.id target now) s habs
    rw [hok]
    dsimp only
    have hcreated : getCall
        { s with calls := s.calls ++ [newPendingCall sid t.id target now] } sid t.id =
        some (newPendingCall sid t.id target now) :=
      getCall_callsCreate (newPendingCall sid t.id target now) s
        { s with calls := s.calls ++ [newPendingCall sid t.id target now] } habs hok
    cases hv : vapiCreateCall cfg orc t with
    | error e =>
      dsimp only
      rw [getCall_callsUpdate _ _ _ _ _ (by simp [CallUpd.hasField]), hcreated]
      rfl
    | ok pr =>
      cases pr with
      | mk dialed callId =>
        dsimp only
        rw [getCall_callsUpdate _ _ _ _ _ (by simp [CallUpd.hasField]), hcreated]
        rfl

/-- Each shop of a duplicate-free batch over fresh keys ends with exactly its
per-shop outcome record, independent of the other shops. -/
theorem dispatchAll_records (cfg : EnvCfg) (orc : Oracles) (now : Nat)
    (sid : String) :
    ∀ (shops : List Shop) (s : Store),
      (shops.map Shop.id).Nodup →
      (∀ t ∈ shops, getCall s sid t.id = none) →
      ∀ t ∈ shops,
        getCall (dispatchAll cfg orc now sid shops s).1 sid t.id =
          some (dispatchOutcome cfg orc now sid t) := by
  intro shops
  induction shops with
  | nil =>
    intro s _ _ t ht
    simp at ht
  | cons hd rest ih =>
    intro s hN hfresh t ht
    have hhd_notin : hd.id ∉ rest.map Shop.id :=
      (List.nodup_cons.mp (by simpa using hN)).1
    have hN2 : (rest.map Shop.id).Nodup :=
      (List.nodup_cons.mp (by simpa using hN)).2
    rcases List.mem_cons.mp ht with hteq | htm
    · rw [hteq, dispatchAll_cons]
      dsimp only
      rw [dispatchAll_frame cfg orc now sid rest _ sid hd.id ?_]
      · exact dispatchShop_outcome cfg orc now sid hd s
          (hfresh hd (List.mem_cons_self _ _))
      · intro t2 ht2
        refine Or.inr ?_
        intro hcc
        apply hhd_notin
        rw [hcc]
        exact List.mem_map_of_mem Shop.id ht2
    · rw [dispatchAll_cons]
      dsimp only
      refine ih _ hN2 ?_ t htm
      intro t2 ht2
      rw [dispatchShop_frame cfg orc now sid hd s sid t2.id (Or.inr ?_)]
      · exact hfresh t2 (List.mem_cons_of_mem _ ht2)
      · intro hcc
        apply hhd_notin
        rw [← hcc]
        exact List.mem_map_of_mem Shop.id ht2

/-- A failing dispatch leaves a FAILED record carrying a reason. -/
theorem dispatchOutcome_failed (cfg : EnvCfg) (orc : Oracles) (now : Nat)
    (sid : String) (t : Shop) (hf : dispatchFails cfg orc t = true) :
    (dispatchOutcome cfg orc now sid t).status = some .FAILED ∧
    ((dispatchOutcome cfg orc now sid t).ended_reason).isSome = true := by
  unfold dispatchFails gateRejects at hf
  unfold dispatchOutcome
  cases hg : enforceDemoMode cfg (orc.rand1 t.id) t.phone with
  | error e => exact ⟨rfl, rfl⟩
  | ok target =>
    rw [hg] at hf
    simp only [Bool.false_or] at hf
    cases hv : vapiCreateCall cfg orc t with
    | error e => exact ⟨rfl, rfl⟩
    | ok pr =>
      rw [hv] at hf
      simp at hf

/-- C6: over a duplicate-free shop list with fresh call keys, each shop's dispatch
leaves exactly its own per-shop outcome record — the same record it gets when
dispatched alone, so no other shop's gate rejection or platform error affects it —
and a shop whose dispatch fails is recorded FAILED with a reason while the rest of
the batch still runs. -/
theorem dispatchAll_fault_isolation (cfg : EnvCfg) (orc : Oracles) (now : Nat)
    (sid : String) (shops : List Shop) (s : Store)
    (hN : (shops.map Shop.id).Nodup)
    (hfresh : ∀ t ∈ shops, getCall s sid t.id = none) :
    ∀ t ∈ shops,
      getCall (dispatchAll cfg orc now sid shops s).1 sid t.id =
        some (dispatchOutcome cfg orc now sid t) ∧
      getCall (dispatchAll cfg orc now sid [t] s).1 sid t.id =
        some (dispatchOutcome cfg orc now sid t) ∧
      (dispatchFails cfg orc t = true →
        (dispatchOutcome cfg orc now sid t).status = some .FAILED ∧
        ((dispatchOutcome cfg orc now sid t).ended_reason).isSome = true) := by
  intro t ht
  refine ⟨dispatchAll_records cfg orc now sid shops s hN hfresh t ht, ?_, ?_⟩
  · exact dispatchAll_records cfg orc now sid [t] s (by simp)
      (by intro t2 ht2; rw [List.mem_singleton.mp ht2]; exact hfresh t ht) t (by simp)
  · exact dispatchOutcome_failed cfg orc now sid t

/-- Witness for C6: shops A, B, C dispatched with a platform that rejects B only;
B's record is FAILED with a reason, A and C get their isolated outcomes. -/
theorem dispatchAll_fault_isolation_witness :
    (getCall (dispatchAll wCfgOpen wOrcVapiBFails 4 "s1" [wShopA, wShopB, wShopC]
        wStoreNoCalls).1 "s1" wShopB.id =
      some (dispatchOutcome wCfgOpen wOrcVapiBFails 4 "s1" wShopB)) ∧
    (getCall (dispatchAll wCfgOpen wOrcVapiBFails 4 "s1" [wShopB]
        wStoreNoCalls).1 "s1" wShopB.id =
      some (dispatchOutcome wCfgOpen wOrcVapiBFails 4 "s1" wShopB)) ∧
    ((dispatchOutcome wCfgOpen wOrcVapiBFails 4 "s1" wShopB).status =
      some .FAILED ∧
     ((dispatchOutcome wCfgOpen wOrcVapiBFails 4 "s1" wShopB).ended_reason).isSome =
      true) := by
  have h := dispatchAll_fault_isolation wCfgOpen wOrcVapiBFails 4 "s1"
    [wShopA, wShopB, wShopC] wStoreNoCalls (by decide) (by decide) wShopB (by decide)
  exact ⟨h.1, h.2.1, h.2.2 (by decide)⟩

/-- C8: with ALLOW_OUTBOUND_CALLS set to "false", running the workflow for a CREATED
session (no pending image work, analysis succeeding) completes normally, places zero
outbound calls, creates zero call records (the calls table is untouched), and drives
the session to the terminal status DONE with its report left unset. -/
theorem workflow_kill_switch (cfg : EnvCfg) (orc : Oracles) (now : Nat)
    (sid : String) (s : Store) (sess : SessionItem) (d : String)
    (hsess : getSession s sid = some sess)
    (hst : sess.status = some .CREATED)
    (himg : sess.image_keys = none)
    (hrep : sess.report = none)
    (hd : orc.damage = .ok d)
    (hallow : cfg.ALLOW_OUTBOUND_CALLS = "false") :
    (runQuoteSessionWorkflow cfg orc now sid s).2 = .ok () ∧
    ((runQuoteSessionWorkflow cfg orc now sid s).1.1).calls = s.calls ∧
    dialCount (runQuoteSessionWorkflow cfg orc now sid s).1.2 = 0 ∧
    ∃ it, getSession (runQuoteSessionWorkflow cfg orc now sid s).1.1 sid = some it ∧
      it.status = some .DONE ∧ it.report = none := by
  have hstat : (sess.status != some SessionStatus.CREATED) = false := by
    rw [hst]
    decide
  have hac : areCallsAllowed cfg = false := by
    unfold areCallsAllowed
    rw [hallow]
    decide
  have hg1 : getSession (sessionsUpdateStatus sid .ANALYZING now s) sid =
      some { sess with status := some SessionStatus.ANALYZING, updated_at := some now } := by
    rw [getSession_updateStatus, hsess]
    rfl
  simp only [runQuoteSessionWorkflow, hsess, hstat, Bool.false_eq_true, if_false,
    himg, hg1, hd, hac, Bool.not_false, if_true, Bool.false_and]
  refine ⟨trivial, rfl, rfl, ?_⟩
  · simp only [getSession_updateStatus, Option.getD_some]
    rw [getSession_update _ _ _ _ (by rfl), hg1]
    refine ⟨_, rfl, rfl, ?_⟩
    simp [applySessionUpd, overrideOpt, hrep]

/-- Witness for C8 on a concrete CREATED session with the kill switch off. -/
theorem workflow_kill_switch_witness :
    (runQuoteSessionWorkflow wCfgNoCalls wOrcAllOk 2 "s1" wStoreNoCalls).2 =
      .ok () ∧
    ((runQuoteSessionWorkflow wCfgNoCalls wOrcAllOk 2 "s1" wStoreNoCalls).1.1).calls =
      wStoreNoCalls.calls ∧
    dialCount (runQuoteSessionWorkflow wCfgNoCalls wOrcAllOk 2 "s1"
      wStoreNoCalls).1.2 = 0 ∧
    ∃ it, getSession (runQuoteSessionWorkflow wCfgNoCalls wOrcAllOk 2 "s1"
        wStoreNoCalls).1.1 "s1" = some it ∧
      it.status = some .DONE ∧ it.report = none :=
  workflow_kill_switch wCfgNoCalls wOrcAllOk 2 "s1" wStoreNoCalls
    (mkCreatedSession wInput 0) "rear bumper damage, moderate" rfl rfl rfl rfl rfl rfl

/-- Case split of the safety gate under strict demo scoping: the requested number is
returned (and is allow-listed) or the violation is thrown. -/
theorem enforceDemoMode_scoped_cases (cfg : EnvCfg) (rand : Nat) (n : String)
    (hDemo : cfg.DEMO_MODE = "true") (hScope : cfg.SCOPE_CALLS_TO_DEMO_LIST = "true") :
    (enforceDemoMode cfg rand n = .ok n ∧ n ∈ getDemoNumbers cfg) ∨
    enforceDemoMode cfg rand n = .error (.demoModeViolation n) := by
  unfold enforceDemoMode
  simp only [hDemo, hScope]
  by_cases hmem : n ∈ getDemoNumbers cfg
  · left
    constructor
    · simp [hmem]
    · exact hmem
  · right
    simp [hmem]

/-- A gate-rejected dispatch preserves the all-FAILED property of the session's
call records (its only write is the FAILED upsert). -/
theorem dispatchShop_rejected_allFailed (cfg : EnvCfg) (orc : Oracles) (now : Nat)
    (sid : String) (t : Shop) (s : Store)
    (hrej : gateRejects cfg orc t = true)
    (hP : (getBySession s sid).all (fun c => c.status == some CallStatus.FAILED) = true) :
    (getBySession (dispatchShop cfg orc now sid t s).1 sid).all
      (fun c => c.status == some CallStatus.FAILED) = true := by
  unfold gateRejects at hrej
  unfold dispatchShop
  cases hg : enforceDemoMode cfg (orc.rand1 t.id) t.phone with
  | ok v =>
    rw [hg] at hrej
    simp at hrej
  | error e =>
    dsimp only
    rw [List.all_eq_true]
    intro c hc
    rw [getBySession_callsUpdate _ _ _ _ _ (by simp [CallUpd.hasField])] at hc
    rcases mem_upsertList _ _ _ _ c hc with hcm | hcm | ⟨x, hx, hfx⟩
    · rw [hcm]
      rfl
    · exact (List.all_eq_true.mp hP) c hcm
    · rw [hfx]
      rfl

/-- A fully gate-rejected batch leaves every call record of the session FAILED. -/
theorem dispatchAll_rejected_allFailed (cfg : EnvCfg) (orc : Oracles) (now : Nat)
    (sid : String) :
    ∀ (shops : List Shop) (s : Store),
      (∀ t ∈ shops, gateRejects cfg orc t = true) →
      (getBySession s sid).all (fun c => c.status == some CallStatus.FAILED) = true →
      (getBySession (dispatchAll cfg orc now sid shops s).1 sid).all
        (fun c => c.status == some CallStatus.FAILED) = true := by
  intro shops
  induction shops with
  | nil =>
    intro s _ hP
    exact hP
  | cons t rest ih =>
    intro s hrej hP
    rw [dispatchAll_cons]
    dsimp only
    exact ih _ (fun t2 ht2 => hrej t2 (List.mem_cons_of_mem _ ht2))
      (dispatchShop_rejected_allFailed cfg orc now sid t s
        (hrej t (List.mem_cons_self _ _)) hP)

/-- Completion check over a session whose calls are all FAILED: everything is
terminal, no call is COMPLETED, so the minimal no-quotes report is persisted and the
session ends DONE. -/
theorem checkSessionCompletion_all_failed (now : Nat) (orc : Except String Report)
    (sid : String) (s : Store) (sess : SessionItem)
    (hsess : getSession s sid = some sess)
    (hall : (getBySession s sid).all (fun c => c.status == some CallStatus.FAILED) = true) :
    ∃ it, getSession (checkSessionCompletion now orc sid s).1 sid = some it ∧
      it.status = some .DONE ∧ it.report = some minimalNoQuotesReport := by
  have hterm : (getBySession s sid).all (fun c => isTerminalStatus c.status) = true := by
    rw [List.all_eq_true]
    intro c hc
    have h1 : c.status = some CallStatus.FAILED := by
      simpa using (List.all_eq_true.mp hall) c hc
    unfold isTerminalStatus
    rw [h1]
    rfl
  have hempty : ((getBySession s sid).filter
      (fun c => c.status == some CallStatus.COMPLETED)) = [] := by
    rw [List.filter_eq_nil_iff]
    intro c hc
    have h1 : c.status = some CallStatus.FAILED := by
      simpa using (List.all_eq_true.mp hall) c hc
    simp [h1]
  have hs1 : getSession (sessionsUpdateStatus sid .SUMMARIZING now s) sid =
      some { sess with status := some SessionStatus.SUMMARIZING, updated_at := some now } := by
    rw [getSession_updateStatus, hsess]
    rfl
  have hgen : generateFinalReport now orc sid (getBySession s sid)
      (sessionsUpdateStatus sid .SUMMARIZING now s) =
      ((sessionsUpdate sid { report := some minimalNoQuotesReport } now
          (sessionsUpdateStatus sid .SUMMARIZING now s),
        [⟨.sessionFieldsWrite sid,
          sessionsUpdate sid { report := some minimalNoQuotesReport } now
            (sessionsUpdateStatus sid .SUMMARIZING now s)⟩]), .ok ()) := by
    unfold generateFinalReport
    rw [hs1]
    dsimp only
    rw [hempty]
    rfl
  have hfin : getSession (sessionsUpdateStatus sid .DONE now
      (sessionsUpdate sid { report := some minimalNoQuotesReport } now
        (sessionsUpdateStatus sid .SUMMARIZING now s))) sid =
      some { sess with status := some SessionStatus.DONE, report := some minimalNoQuotesReport, updated_at := some now } := by
    rw [getSession_updateStatus, getSession_update _ _ _ _ (by rfl), hs1]
    rfl
  simp only [checkSessionCompletion, hterm, if_true, hgen]
  exact ⟨_, hfin, rfl, rfl⟩

/-- C9 (counterexample): a CREATED session whose only shop is rejected by the strict
safety gate runs the workflow to completion with the shop's record FAILED, yet the
session is left in CALLING — not DONE or FAILED — because nothing on this path ever
invokes the completion check. -/
theorem workflow_stalls_in_calling_cex :
    (getSession (runQuoteSessionWorkflow wCfgStrict wOrcAllOk 3 "s9" wStoreX).1.1
      "s9").map SessionItem.status = some (some SessionStatus.CALLING) ∧
    (getCall (runQuoteSessionWorkflow wCfgStrict wOrcAllOk 3 "s9" wStoreX).1.1
      "s9" "X").map CallItem.status = some (some CallStatus.FAILED) := by
  exact ⟨rfl, rfl⟩

/-- C9 (amended): when every shop of the session is rejected by the strict safety
gate (and no completion event ever arrives), the workflow leaves the session in
CALLING — it does not reach DONE or FAILED on its own; the session reaches a terminal
state only if checkSessionCompletion is later invoked for it, in which case (all
records FAILED) it transitions to DONE with the minimal no-quotes report. -/
theorem workflow_all_rejected_stalls (cfg : EnvCfg) (orc : Oracles) (now : Nat)
    (sid : String) (s : Store) (sess : SessionItem) (shops : List Shop) (d : String)
    (hsess : getSession s sid = some sess)
    (hst : sess.status = some .CREATED)
    (himg : sess.image_keys = none)
    (hshops : sess.shops = some shops)
    (hd : orc.damage = .ok d)
    (hallow : cfg.ALLOW_OUTBOUND_CALLS = "true")
    (hdemo : cfg.DEMO_MODE = "true")
    (hscope : cfg.SCOPE_CALLS_TO_DEMO_LIST = "true")
    (hout : ∀ t ∈ shops, t.phone ∉ getDemoNumbers cfg)
    (hfresh : getBySession s sid = []) :
    (∃ it, getSession (runQuoteSessionWorkflow cfg orc now sid s).1.1 sid = some it ∧
      it.status = some .CALLING) ∧
    (∀ (now2 : Nat) (orc2 : Except String Report),
      ∃ it2, getSession (checkSessionCompletion now2 orc2 sid
          (runQuoteSessionWorkflow cfg orc now sid s).1.1).1 sid = some it2 ∧
        it2.status = some .DONE ∧ it2.report = some minimalNoQuotesReport) := by
  have hstat : (sess.status != some SessionStatus.CREATED) = false := by
    rw [hst]
    decide
  have hac : areCallsAllowed cfg = true := by
    unfold areCallsAllowed
    rw [hallow]
    decide
  have hg1 : getSession (sessionsUpdateStatus sid .ANALYZING now s) sid =
      some { sess with status := some SessionStatus.ANALYZING, updated_at := some now } := by
    rw [getSession_updateStatus, hsess]
    rfl
  have hg3 : getSession (sessionsUpdateStatus sid .CALLING now
      (sessionsUpdate sid { damage_summary := some d } now
        (sessionsUpdateStatus sid .ANALYZING now s))) sid =
      some { sess with damage_summary := some d, status := some SessionStatus.CALLING, updated_at := some now } := by
    rw [getSession_updateStatus, getSession_update _ _ _ _ (by rfl), hg1]
    rfl
  have hrej : ∀ t ∈ shops, gateRejects cfg orc t = true := by
    intro t htm
    unfold gateRejects
    rcases enforceDemoMode_scoped_cases cfg (orc.rand1 t.id) t.phone hdemo hscope with
      ⟨hok, hmem⟩ | herr
    · exact absurd hmem (hout t htm)
    · rw [herr]
  simp only [runQuoteSessionWorkflow, hsess, hstat, Bool.false_eq_true, if_false,
    himg, Bool.false_and, hg1, hd, hac, Bool.not_true, hg3, hshops]
  have hsess4 : getSession (dispatchAll cfg orc now sid shops
      (sessionsUpdateStatus sid .CALLING now
        (sessionsUpdate sid { damage_summary := some d } now
          (sessionsUpdateStatus sid .ANALYZING now s)))).1 sid =
      some { sess with damage_summary := some d, status := some SessionStatus.CALLING, updated_at := some now } := by
    rw [getSession_congr_sessions _ _ (dispatchAll_sessions cfg orc now sid shops _) sid]
    exact hg3
  have hfailed : (getBySession (dispatchAll cfg orc now sid shops
      (sessionsUpdateStatus sid .CALLING now
        (sessionsUpdate sid { damage_summary := some d } now
          (sessionsUpdateStatus sid .ANALYZING now s)))).1 sid).all
      (fun c => c.status == some CallStatus.FAILED) = true := by
    apply dispatchAll_rejected_allFailed cfg orc now sid shops _ hrej
    have hcalls3 : getBySession (sessionsUpdateStatus sid .CALLING now
        (sessionsUpdate sid { damage_summary := some d } now
          (sessionsUpdateStatus sid .ANALYZING now s))) sid = getBySession s sid :=
      getBySession_congr_calls _ _ rfl sid
    rw [hcalls3, hfresh]
    rfl
  constructor
  · exact ⟨_, hsess4, rfl⟩
  · intro now2 orc2
    exact checkSessionCompletion_all_failed now2 orc2 sid _ _ hsess4 hfailed

/-- Witness for the amended C9: the concrete all-rejected session stays in CALLING,
and a later completion-check invocation yields DONE with the no-quotes report. -/
theorem workflow_all_rejected_stalls_witness :
    (∃ it, getSession (runQuoteSessionWorkflow wCfgStrict wOrcAllOk 3 "s9"
        wStoreX).1.1 "s9" = some it ∧ it.status = some .CALLING) ∧
    (∃ it2, getSession (checkSessionCompletion 11 (Except.error "down") "s9"
        (runQuoteSessionWorkflow wCfgStrict wOrcAllOk 3 "s9" wStoreX).1.1).1 "s9" =
        some it2 ∧
      it2.status = some .DONE ∧ it2.report = some minimalNoQuotesReport) := by
  have h := workflow_all_rejected_stalls wCfgStrict wOrcAllOk 3 "s9" wStoreX
    (mkCreatedSession wInputX 0) [wShopX] "rear bumper damage, moderate"
    rfl rfl rfl rfl rfl rfl rfl rfl (by decide) rfl
  exact ⟨h.1, h.2 11 (Except.error "down")⟩

/-- The report/status relationship transfers across equal sessions tables. -/
theorem ok_congr_sessions (s t : Store) (h : s.sessions = t.sessions)
    (hs : ∀ it ∈ t.sessions, sessionItemOk it = true) :
    ∀ it ∈ s.sessions, sessionItemOk it = true := by
  rw [h]
  exact hs

/-- Writing a SUMMARIZING, DONE or FAILED status preserves the report/status
relationship on every item. -/
theorem sessionsUpdateStatus_ok_late (sid : String) (st : SessionStatus) (now : Nat)
    (s : Store)
    (hst : st = .SUMMARIZING ∨ st = .DONE ∨ st = .FAILED)
    (hs : ∀ it ∈ s.sessions, sessionItemOk it = true) :
    ∀ it ∈ (sessionsUpdateStatus sid st now s).sessions, sessionItemOk it = true := by
  intro it hit
  refine upsertList_forall (sessionKey sid) _ _ s.sessions hs ?_ ?_ it hit
  · intro x _
    unfold sessionItemOk
    rcases hst with h | h | h <;> (rw [h]; simp)
  · intro _
    unfold sessionItemOk
    rcases hst with h | h | h <;> (rw [h]; simp)

/-- Writing any status to a session whose stored item carries no report preserves
the relationship (the created partial item carries no report either). -/
theorem sessionsUpdateStatus_ok_fresh (sid : String) (st : SessionStatus) (now : Nat)
    (s : Store)
    (hrep : ∀ x, s.sessions.find? (sessionKey sid) = some x → x.report = none)
    (hs : ∀ it ∈ s.sessions, sessionItemOk it = true) :
    ∀ it ∈ (sessionsUpdateStatus sid st now s).sessions, sessionItemOk it = true := by
  intro it hit
  refine upsertList_forall (sessionKey sid) _ _ s.sessions hs ?_ ?_ it hit
  · intro x hx
    unfold sessionItemOk
    rw [show ({ x with status := some st, updated_at := some now } : SessionItem).report
      = x.report from rfl, hrep x hx]
    rfl
  · intro _
    rfl

/-- A field update carrying no report value preserves the relationship. -/
theorem sessionsUpdate_ok_noreport (sid : String) (u : SessionUpd) (now : Nat)
    (s : Store) (hur : u.report = none)
    (hs : ∀ it ∈ s.sessions, sessionItemOk it = true) :
    ∀ it ∈ (sessionsUpdate sid u now s).sessions, sessionItemOk it = true := by
  unfold sessionsUpdate
  by_cases hf : u.hasField
  · simp only [hf, Bool.not_true, Bool.false_eq_true, if_false]
    intro it hit
    refine upsertList_forall (sessionKey sid) _ _ s.sessions hs ?_ ?_ it hit
    · intro x hx
      have hxmem : x ∈ s.sessions := List.mem_of_find?_eq_some hx
      have hok := hs x hxmem
      unfold sessionItemOk at hok ⊢
      unfold applySessionUpd
      rw [hur]
      simpa [overrideOpt] using hok
    · intro _
      unfold sessionItemOk applySessionUpd
      rw [hur]
      rfl
  · rw [Bool.not_eq_true] at hf
    simp only [hf, Bool.not_false, if_true]
    exact hs

/-- A field update targeting a session whose stored item already has a late status
(SUMMARIZING, DONE or FAILED) preserves the relationship for any update value. -/
theorem sessionsUpdate_ok_late (sid : String) (u : SessionUpd) (now : Nat)
    (s : Store) (x : SessionItem)
    (hfind : s.sessions.find? (sessionKey sid) = some x)
    (hxst : x.status = some .SUMMARIZING ∨ x.status = some .DONE ∨
      x.status = some .FAILED)
    (hs : ∀ it ∈ s.sessions, sessionItemOk it = true) :
    ∀ it ∈ (sessionsUpdate sid u now s).sessions, sessionItemOk it = true := by
  unfold sessionsUpdate
  by_cases hf : u.hasField
  · simp only [hf, Bool.not_true, Bool.false_eq_true, if_false]
    intro it hit
    refine upsertList_forall (sessionKey sid) _ _ s.sessions hs ?_ ?_ it hit
    · intro y hy
      rw [hfind] at hy
      injection hy with hy
      rw [← hy]
      unfold sessionItemOk
      rw [show (applySessionUpd u now x).status = x.status from rfl]
      rcases hxst with h | h | h <;> (rw [h]; simp)
    · intro hnone
      rw [hfind] at hnone
      cases hnone
  · rw [Bool.not_eq_true] at hf
    simp only [hf, Bool.not_false, if_true]
    exact hs

/-- Report generation preserves the report/status relationship (it writes the report
only after looking up a session whose status is already late), on the final state and
on every intermediate state. -/
theorem generateFinalReport_ok (now : Nat) (orc : Except String Report) (sid : String)
    (calls : List CallItem) (s : Store)
    (hs : ∀ it ∈ s.sessions, sessionItemOk it = true)
    (hstat : ∀ x, getSession s sid = some x →
      x.status = some .SUMMARIZING ∨ x.status = some .DONE ∨
        x.status = some .FAILED) :
    (∀ it ∈ ((generateFinalReport now orc sid calls s).1.1).sessions,
      sessionItemOk it = true) ∧
    (∀ stp ∈ (generateFinalReport now orc sid calls s).1.2,
      ∀ it ∈ stp.post.sessions, sessionItemOk it = true) := by
  unfold generateFinalReport
  cases hgs : getSession s sid with
  | none =>
    refine ⟨hs, ?_⟩
    intro stp h
    simp at h
  | some sess =>
    by_cases hcc : (calls.filter (fun c => c.status == some .COMPLETED)).isEmpty
    · simp only [hcc, if_true]
      refine ⟨sessionsUpdate_ok_late sid _ now s sess hgs (hstat sess hgs) hs, ?_⟩
      intro stp h
      simp only [List.mem_singleton] at h
      rw [h]
      exact sessionsUpdate_ok_late sid _ now s sess hgs (hstat sess hgs) hs
    · simp only [hcc, Bool.false_eq_true, if_false]
      cases hsh : sess.shops with
      | none =>
        refine ⟨hs, ?_⟩
        intro stp h
        simp at h
      | some shops =>
        cases orc with
        | error e =>
          refine ⟨hs, ?_⟩
          intro stp h
          simp at h
        | ok rpt =>
          refine ⟨sessionsUpdate_ok_late sid _ now s sess hgs (hstat sess hgs) hs, ?_⟩
          intro stp h
          simp only [List.mem_singleton] at h
          rw [h]
          exact sessionsUpdate_ok_late sid _ now s sess hgs (hstat sess hgs) hs

/-- The completion check preserves the report/status relationship on the final state
and on every intermediate state it passes through. -/
theorem checkSessionCompletion_ok (now : Nat) (orc : Except String Report)
    (sid : String) (s : Store)
    (hs : ∀ it ∈ s.sessions, sessionItemOk it = true) :
    (∀ it ∈ ((checkSessionCompletion now orc sid s).1).sessions,
      sessionItemOk it = true) ∧
    (∀ stp ∈ (checkSessionCompletion now orc sid s).2,
      ∀ it ∈ stp.post.sessions, sessionItemOk it = true) := by
  cases hallb : allTerminal s sid with
  | false =>
    rw [checkSessionCompletion_noop now orc sid s hallb]
    refine ⟨hs, ?_⟩
    intro stp h
    simp at h
  | true =>
    unfold checkSessionCompletion
    have hall : (getBySession s sid).all (fun c => isTerminalStatus c.status) = true :=
      hallb
    rw [if_pos hall]
    have hs1 := sessionsUpdateStatus_ok_late sid .SUMMARIZING now s (Or.inl rfl) hs
    have hstat1 : ∀ x, getSession (sessionsUpdateStatus sid .SUMMARIZING now s) sid =
        some x → x.status = some .SUMMARIZING ∨ x.status = some .DONE ∨
          x.status = some .FAILED := by
      intro x hx
      rw [getSession_updateStatus] at hx
      injection hx with hx
      rw [← hx]
      exact Or.inl rfl
    have hgen := generateFinalReport_ok now orc sid (getBySession s sid)
      (sessionsUpdateStatus sid .SUMMARIZING now s) hs1 hstat1
    cases hg : generateFinalReport now orc sid (getBySession s sid)
        (sessionsUpdateStatus sid .SUMMARIZING now s) with
    | mk tr res =>
      cases tr with
      | mk s2 t2 =>
        rw [hg] at hgen
        cases res with
        | ok u =>
          cases u
          simp only [hg]
          refine ⟨sessionsUpdateStatus_ok_late sid .DONE now s2
            (Or.inr (Or.inl rfl)) hgen.1, ?_⟩
          intro stp h
          simp only [List.cons_append, List.mem_cons, List.mem_append,
            List.mem_singleton] at h
          rcases h with h | h | (h | h) | (h | h)
          · rw [h]
            exact hs1
          · rw [h]
            exact hs1
          · simp at h
          · exact hgen.2 stp h
          · rw [h]
            exact sessionsUpdateStatus_ok_late sid .DONE now s2
              (Or.inr (Or.inl rfl)) hgen.1
          · simp at h
        | error e =>
          simp only [hg]
          refine ⟨sessionsUpdateStatus_ok_late sid .FAILED now s2
            (Or.inr (Or.inr rfl)) hgen.1, ?_⟩
          intro stp h
          simp only [List.cons_append, List.mem_cons, List.mem_append,
            List.mem_singleton] at h
          rcases h with h | h | (h | h) | (h | h)
          · rw [h]
            exact hs1
          · rw [h]
            exact hs1
          · simp at h
          · exact hgen.2 stp h
          · rw [h]
            exact sessionsUpdateStatus_ok_late sid .FAILED now s2
              (Or.inr (Or.inr rfl)) hgen.1
          · simp at h

/-- The webhook handler preserves the report/status relationship on the final state
and on every intermediate state. -/
theorem webhookPOST_ok (now : Nat) (orc : Except String Report) (ev : WEvent)
    (s : Store) (hs : ∀ it ∈ s.sessions, sessionItemOk it = true) :
    (∀ it ∈ ((webhookPOST now orc ev s).1.1).sessions, sessionItemOk it = true) ∧
    (∀ stp ∈ (webhookPOST now orc ev s).1.2,
      ∀ it ∈ stp.post.sessions, sessionItemOk it = true) := by
  unfold webhookPOST
  by_cases hmeta : (metaPresent ev.meta_session_id && metaPresent ev.meta_shop_id) = true
  · simp only [hmeta, Bool.not_true, Bool.false_eq_true, if_false]
    cases ev.wtype with
    | callStarted =>
      have hs1 := ok_congr_sessions
        (callsUpdate (ev.meta_session_id.getD "") (ev.meta_shop_id.getD "")
          (startedUpd ev) now s) s (callsUpdate_sessions _ _ _ _ _) hs
      refine ⟨hs1, ?_⟩
      intro stp h
      simp only [List.mem_singleton] at h
      rw [h]
      exact hs1
    | callEnded =>
      have hs1 := ok_congr_sessions
        (callsUpdate (ev.meta_session_id.getD "") (ev.meta_shop_id.getD "")
          (endedUpd ev) now s) s (callsUpdate_sessions _ _ _ _ _) hs
      have hchk := checkSessionCompletion_ok now orc (ev.meta_session_id.getD "")
        (callsUpdate (ev.meta_session_id.getD "") (ev.meta_shop_id.getD "")
          (endedUpd ev) now s) hs1
      refine ⟨hchk.1, ?_⟩
      intro stp h
      rcases List.mem_cons.mp h with h | h
      · rw [h]
        exact hs1
      · exact hchk.2 stp h
    | callFailed =>
      have hs1 := ok_congr_sessions
        (callsUpdate (ev.meta_session_id.getD "") (ev.meta_shop_id.getD "")
          (failedUpd ev) now s) s (callsUpdate_sessions _ _ _ _ _) hs
      have hchk := checkSessionCompletion_ok now orc (ev.meta_session_id.getD "")
        (callsUpdate (ev.meta_session_id.getD "") (ev.meta_shop_id.getD "")
          (failedUpd ev) now s) hs1
      refine ⟨hchk.1, ?_⟩
      intro stp h
      rcases List.mem_cons.mp h with h | h
      · rw [h]
        exact hs1
      · exact hchk.2 stp h
    | statusUpdate =>
      refine ⟨hs, ?_⟩
      intro stp h
      simp at h
    | other =>
      refine ⟨hs, ?_⟩
      intro stp h
      simp at h
  · rw [Bool.not_eq_true] at hmeta
    simp only [hmeta, Bool.not_false, if_true]
    refine ⟨hs, ?_⟩
    intro stp h
    simp at h

/-- The Freepik resume handler preserves the report/status relationship. -/
theorem resumeAfterImagePrompt_ok (now : Nat) (damageOracle : Except String String)
    (sid prompt : String) (s : Store)
    (hs : ∀ it ∈ s.sessions, sessionItemOk it = true) :
    (∀ it ∈ ((resumeAfterImagePrompt now damageOracle sid prompt s).1).sessions,
      sessionItemOk it = true) ∧
    (∀ stp ∈ (resumeAfterImagePrompt now damageOracle sid prompt s).2,
      ∀ it ∈ stp.post.sessions, sessionItemOk it = true) := by
  unfold resumeAfterImagePrompt
  cases hgs : getSession s sid with
  | none =>
    refine ⟨hs, ?_⟩
    intro stp h
    simp at h
  | some sess =>
    by_cases hstt : (sess.status != some SessionStatus.ANALYZING) = true
    · simp only [hstt, if_true]
      refine ⟨hs, ?_⟩
      intro stp h
      simp at h
    · rw [Bool.not_eq_true] at hstt
      simp only [hstt, Bool.false_eq_true, if_false]
      have hs1 := sessionsUpdate_ok_noreport sid { image_prompt := some prompt } now s
        rfl hs
      cases damageOracle with
      | error e =>
        have hs2 := sessionsUpdateStatus_ok_late sid .FAILED now
          (sessionsUpdate sid { image_prompt := some prompt } now s)
          (Or.inr (Or.inr rfl)) hs1
        refine ⟨hs2, ?_⟩
        intro stp h
        simp only [List.cons_append, List.nil_append, List.mem_cons,
          List.mem_singleton] at h
        rcases h with h | h | h
        · rw [h]
          exact hs1
        · rw [h]
          exact hs2
        · simp at h
      | ok dmg =>
        have hs2 := sessionsUpdate_ok_noreport sid { damage_summary := some dmg } now
          (sessionsUpdate sid { image_prompt := some prompt } now s) rfl hs1
        refine ⟨hs2, ?_⟩
        intro stp h
        simp only [List.cons_append, List.nil_append, List.mem_cons,
          List.mem_singleton] at h
        rcases h with h | h | h
        · rw [h]
          exact hs1
        · rw [h]
          exact hs2
        · simp at h

/-- Every intermediate state of a one-shop dispatch has the same sessions table. -/
theorem dispatchShop_steps_sessions (cfg : EnvCfg) (orc : Oracles) (now : Nat)
    (sid : String) (t : Shop) (s : Store) :
    ∀ stp ∈ (dispatchShop cfg orc now sid t s).2, stp.post.sessions = s.sessions := by
  unfold dispatchShop
  cases hg : enforceDemoMode cfg (orc.rand1 t.id) t.phone with
  | error e =>
    dsimp only
    intro stp h
    simp only [List.nil_append, List.mem_singleton] at h
    rw [h]
    exact callsUpdate_sessions _ _ _ _ _
  | ok target =>
    dsimp only
    cases hc : callsCreate (newPendingCall sid t.id target now) s with
    | error e =>
      dsimp only
      intro stp h
      simp only [List.nil_append, List.mem_singleton] at h
      rw [h]
      exact callsUpdate_sessions _ _ _ _ _
    | ok s1 =>
      dsimp only
      have hs1 := callsCreate_sessions _ _ _ hc
      cases hv : vapiCreateCall cfg orc t with
      | error e =>
        dsimp only
        intro stp h
        simp only [List.cons_append, List.nil_append, List.mem_cons,
          List.mem_singleton] at h
        rcases h with h | h | h
        · rw [h]
          exact hs1
        · rw [h]
          rw [show ((callsUpdate sid t.id
            { status := some CallStatus.FAILED,
              ended_reason := some (errMessage e) } now
            s1)).sessions = s1.sessions from callsUpdate_sessions _ _ _ _ _]
          exact hs1
        · simp at h
      | ok pr =>
        cases pr with
        | mk dialed callId =>
          dsimp only
          intro stp h
          simp only [List.cons_append, List.nil_append, List.mem_cons,
            List.mem_singleton] at h
          rcases h with h | h | h | h
          · rw [h]
            exact hs1
          · rw [h]
            exact hs1
          · rw [h]
            rw [show ((callsUpdate sid t.id
              { vapi_call_id := some callId, status := some CallStatus.IN_PROGRESS }
              now s1)).sessions = s1.sessions from callsUpdate_sessions _ _ _ _ _]
            exact hs1
          · simp at h

/-- Every intermediate state of the dispatch loop has the same sessions table. -/
theorem dispatchAll_steps_sessions (cfg : EnvCfg) (orc : Oracles) (now : Nat)
    (sid : String) :
    ∀ (shops : List Shop) (s : Store),
      ∀ stp ∈ (dispatchAll cfg orc now sid shops s).2,
        stp.post.sessions = s.sessions := by
  intro shops
  induction shops with
  | nil =>
    intro s stp h
    simp [dispatchAll] at h
  | cons t rest ih =>
    intro s stp h
    rw [dispatchAll_cons] at h
    dsimp only at h
    rcases List.mem_append.mp h with h | h
    · exact dispatchShop_steps_sessions cfg orc now sid t s stp h
    · rw [ih _ stp h]
      exact dispatchShop_sessions cfg orc now sid t s

/-- find? after an upsert on its own key yields the rewritten (or freshly built)
item, provided the rewrite and the fresh item keep the key. -/
theorem find?_upsertList {α : Type} (key : α → Bool) (f : α → α) (mk : α)
    (hf : ∀ x, key x = true → key (f x) = true) (hmk : key mk = true) :
    ∀ l : List α,
      (upsertList key f mk l).find? key =
        (match l.find? key with | some x => some (f x) | none => some mk) := by
  intro l
  induction l with
  | nil =>
    simp [upsertList, List.find?, hmk]
  | cons a l ih =>
    by_cases ha : key a = true
    · rw [show upsertList key f mk (a :: l) = f a :: l by simp [upsertList, ha]]
      rw [List.find?_cons_of_pos _ (hf a ha), List.find?_cons_of_pos _ ha]
    · have ha' : ¬ (key a = true) := ha
      rw [show upsertList key f mk (a :: l) = a :: upsertList key f mk l by
        simp [upsertList, ha]]
      rw [List.find?_cons_of_neg _ ha', List.find?_cons_of_neg _ ha', ih]

/-- A status write does not change whether the session record's report is absent. -/
theorem sessionsUpdateStatus_report_none (sid : String) (st : SessionStatus)
    (now : Nat) (s : Store)
    (hr : ∀ x, s.sessions.find? (sessionKey sid) = some x → x.report = none) :
    ∀ x, (sessionsUpdateStatus sid st now s).sessions.find? (sessionKey sid) =
      some x → x.report = none := by
  have hf : ∀ y, sessionKey sid y = true →
      sessionKey sid { y with status := some st, updated_at := some now } = true := by
    intro y hy
    simpa [sessionKey] using hy
  have hmk : sessionKey sid { emptySessionItem sid with status := some st, updated_at := some now } = true := by
    simp [sessionKey, emptySessionItem]
  intro x hx
  unfold sessionsUpdateStatus at hx
  dsimp only at hx
  rw [find?_upsertList (sessionKey sid)
    (fun it => { it with status := some st, updated_at := some now })
    { emptySessionItem sid with status := some st, updated_at := some now }
    hf hmk s.sessions] at hx
  cases hfind : s.sessions.find? (sessionKey sid) with
  | none =>
    rw [hfind] at hx
    injection hx with hx
    rw [← hx]
    rfl
  | some y =>
    rw [hfind] at hx
    injection hx with hx
    rw [← hx]
    exact hr y hfind

/-- A field write whose SET expression does not mention report does not change
whether the session record's report is absent. -/
theorem sessionsUpdate_report_none (sid : String) (u : SessionUpd) (now : Nat)
    (s : Store) (hur : u.report = none)
    (hr : ∀ x, s.sessions.find? (sessionKey sid) = some x → x.report = none) :
    ∀ x, (sessionsUpdate sid u now s).sessions.find? (sessionKey sid) = some x →
      x.report = none := by
  unfold sessionsUpdate
  by_cases hfld : u.hasField
  · simp only [hfld, Bool.not_true, Bool.false_eq_true, if_false]
    have hf : ∀ y, sessionKey sid y = true →
        sessionKey sid (applySessionUpd u now y) = true := by
      intro y hy
      simpa [sessionKey, applySessionUpd] using hy
    have hmk : sessionKey sid (applySessionUpd u now (emptySessionItem sid)) = true := by
      simp [sessionKey, applySessionUpd, emptySessionItem]
    intro x hx
    rw [find?_upsertList (sessionKey sid) (applySessionUpd u now)
      (applySessionUpd u now (emptySessionItem sid)) hf hmk s.sessions] at hx
    cases hfind : s.sessions.find? (sessionKey sid) with
    | none =>
      rw [hfind] at hx
      injection hx with hx
      rw [← hx]
      show overrideOpt u.report (emptySessionItem sid).report = none
      rw [hur]
      rfl
    | some y =>
      rw [hfind] at hx
      injection hx with hx
      rw [← hx]
      show overrideOpt u.report y.report = none
      rw [hur]
      exact hr y hfind
  · simp only [Bool.not_eq_true] at hfld
    simp only [hfld, Bool.not_false, if_true]
    exact hr

/-- A full workflow run preserves the report/status relationship on the final state
and on every intermediate state. -/
theorem runQuoteSessionWorkflow_ok (cfg : EnvCfg) (orc : Oracles) (now : Nat)
    (sid : String) (s : Store)
    (hs : ∀ it ∈ s.sessions, sessionItemOk it = true) :
    (∀ it ∈ ((runQuoteSessionWorkflow cfg orc now sid s).1.1).sessions,
      sessionItemOk it = true) ∧
    (∀ stp ∈ (runQuoteSessionWorkflow cfg orc now sid s).1.2,
      ∀ it ∈ stp.post.sessions, sessionItemOk it = true) := by
  cases hgs : getSession s sid with
  | none =>
    refine ⟨?_, ?_⟩ <;> simp only [runQuoteSessionWorkflow, hgs]
    · exact hs
    · intro stp h
      simp at h
  | some sess =>
    by_cases hstt0 : (sess.status != some SessionStatus.CREATED) = true
    · refine ⟨?_, ?_⟩ <;> simp only [runQuoteSessionWorkflow, hgs, hstt0, if_true]
      · exact hs
      · intro stp h
        simp at h
    · rw [Bool.not_eq_true] at hstt0
      have hcreated : sess.status = some SessionStatus.CREATED := by
        by_contra hne
        rw [bne_iff_ne.mpr hne] at hstt0
        simp at hstt0
      have hgs' : s.sessions.find? (sessionKey sid) = some sess := hgs
      have hmem : sess ∈ s.sessions := List.mem_of_find?_eq_some hgs'
      have hrep : sess.report = none := by
        cases hrp : sess.report with
        | none => rfl
        | some r =>
          have h1 := hs sess hmem
          unfold sessionItemOk at h1
          rw [hrp, hcreated] at h1
          simp only [Option.isSome_some, Bool.not_true, Bool.false_or] at h1
          exact absurd h1 (by decide)
      have hr0 : ∀ x, s.sessions.find? (sessionKey sid) = some x → x.report = none := by
        intro x hx
        rw [hgs'] at hx
        injection hx with hx
        rw [← hx]
        exact hrep
      have hs1 := sessionsUpdateStatus_ok_fresh sid SessionStatus.ANALYZING now s hr0 hs
      have hr1 := sessionsUpdateStatus_report_none sid SessionStatus.ANALYZING now s hr0
      have hsF1 := sessionsUpdateStatus_ok_late sid SessionStatus.FAILED now
        (sessionsUpdateStatus sid SessionStatus.ANALYZING now s) (Or.inr (Or.inr rfl)) hs1
      cases hik : sess.image_keys with
      | none =>
        cases hgs1 : getSession (sessionsUpdateStatus sid SessionStatus.ANALYZING now s)
            sid with
        | none =>
          refine ⟨?_, ?_⟩ <;>
            simp only [runQuoteSessionWorkflow, hgs, hstt0, Bool.false_eq_true, if_false,
              hik, Bool.false_and, List.append_nil, hgs1]
          · exact hsF1
          · intro stp h
            simp at h
            rcases h with h | h
            · rw [h]
              exact hs1
            · rw [h]
              exact hsF1
        | some rf =>
          cases hdmg : orc.damage with
          | error m =>
            refine ⟨?_, ?_⟩ <;>
              simp only [runQuoteSessionWorkflow, hgs, hstt0, Bool.false_eq_true,
                if_false, hik, Bool.false_and, List.append_nil, hgs1, hdmg]
            · exact hsF1
            · intro stp h
              simp at h
              rcases h with h | h
              · rw [h]
                exact hs1
              · rw [h]
                exact hsF1
          | ok d =>
            have hs2 := sessionsUpdate_ok_noreport sid { damage_summary := some d } now
              (sessionsUpdateStatus sid SessionStatus.ANALYZING now s) rfl hs1
            have hr2 := sessionsUpdate_report_none sid { damage_summary := some d } now
              (sessionsUpdateStatus sid SessionStatus.ANALYZING now s) rfl hr1
            have hs3 := sessionsUpdateStatus_ok_fresh sid SessionStatus.CALLING now
              (sessionsUpdate sid { damage_summary := some d } now
                (sessionsUpdateStatus sid SessionStatus.ANALYZING now s)) hr2 hs2
            by_cases hac : (!areCallsAllowed cfg) = true
            · have hs4 := sessionsUpdateStatus_ok_late sid SessionStatus.SUMMARIZING now
                (sessionsUpdateStatus sid SessionStatus.CALLING now
                  (sessionsUpdate sid { damage_summary := some d } now
                    (sessionsUpdateStatus sid SessionStatus.ANALYZING now s)))
                (Or.inl rfl) hs3
              have hs5 := sessionsUpdateStatus_ok_late sid SessionStatus.DONE now
                (sessionsUpdateStatus sid SessionStatus.SUMMARIZING now
                  (sessionsUpdateStatus sid SessionStatus.CALLING now
                    (sessionsUpdate sid { damage_summary := some d } now
                      (sessionsUpdateStatus sid SessionStatus.ANALYZING now s))))
                (Or.inr (Or.inl rfl)) hs4
              refine ⟨?_, ?_⟩ <;>
                simp only [runQuoteSessionWorkflow, hgs, hstt0, Bool.false_eq_true,
                  if_false, hik, Bool.false_and, List.append_nil, hgs1, hdmg, hac,
                  if_true]
              · exact hs5
              · intro stp h
                simp at h
                rcases h with h | h | h | h | h
                · rw [h]
                  exact hs1
                · rw [h]
                  exact hs2
                · rw [h]
                  exact hs3
                · rw [h]
                  exact hs4
                · rw [h]
                  exact hs5
            · rw [Bool.not_eq_true] at hac
              cases hgs3 : getSession (sessionsUpdateStatus sid SessionStatus.CALLING now
                  (sessionsUpdate sid { damage_summary := some d } now
                    (sessionsUpdateStatus sid SessionStatus.ANALYZING now s))) sid with
              | none =>
                have hsF3 := sessionsUpdateStatus_ok_late sid SessionStatus.FAILED now
                  (sessionsUpdateStatus sid SessionStatus.CALLING now
                    (sessionsUpdate sid { damage_summary := some d } now
                      (sessionsUpdateStatus sid SessionStatus.ANALYZING now s)))
                  (Or.inr (Or.inr rfl)) hs3
                refine ⟨?_, ?_⟩ <;>
                  simp only [runQuoteSessionWorkflow, hgs, hstt0, Bool.false_eq_true,
                    if_false, hik, Bool.false_and, List.append_nil, hgs1, hdmg, hac,
                    hgs3]
                · exact hsF3
                · intro stp h
                  simp at h
                  rcases h with h | h | h | h
                  · rw [h]
                    exact hs1
                  · rw [h]
                    exact hs2
                  · rw [h]
                    exact hs3
                  · rw [h]
                    exact hsF3
              | some sws =>
                cases hshops : sws.shops with
                | none =>
                  have hsF3 := sessionsUpdateStatus_ok_late sid SessionStatus.FAILED now
                    (sessionsUpdateStatus sid SessionStatus.CALLING now
                      (sessionsUpdate sid { damage_summary := some d } now
                        (sessionsUpdateStatus sid SessionStatus.ANALYZING now s)))
                    (Or.inr (Or.inr rfl)) hs3
                  refine ⟨?_, ?_⟩ <;>
                    simp only [runQuoteSessionWorkflow, hgs, hstt0, Bool.false_eq_true,
                      if_false, hik, Bool.false_and, List.append_nil, hgs1, hdmg, hac,
                      hgs3, hshops]
                  · exact hsF3
                  · intro stp h
                    simp at h
                    rcases h with h | h | h | h
                    · rw [h]
                      exact hs1
                    · rw [h]
                      exact hs2
                    · rw [h]
                      exact hs3
                    · rw [h]
                      exact hsF3
                | some shops =>
                  cases hda : dispatchAll cfg orc now sid shops
                      (sessionsUpdateStatus sid SessionStatus.CALLING now
                        (sessionsUpdate sid { damage_summary := some d } now
                          (sessionsUpdateStatus sid SessionStatus.ANALYZING now s)))
                      with
                  | mk s4 t5 =>
                    have hda1 : s4.sessions =
                        (sessionsUpdateStatus sid SessionStatus.CALLING now
                          (sessionsUpdate sid { damage_summary := some d } now
                            (sessionsUpdateStatus sid SessionStatus.ANALYZING now
                              s))).sessions := by
                      have h0 := dispatchAll_sessions cfg orc now sid shops
                        (sessionsUpdateStatus sid SessionStatus.CALLING now
                          (sessionsUpdate sid { damage_summary := some d } now
                            (sessionsUpdateStatus sid SessionStatus.ANALYZING now s)))
                      rw [hda] at h0
                      exact h0
                    have hda2 : ∀ stp ∈ t5, stp.post.sessions =
                        (sessionsUpdateStatus sid SessionStatus.CALLING now
                          (sessionsUpdate sid { damage_summary := some d } now
                            (sessionsUpdateStatus sid SessionStatus.ANALYZING now
                              s))).sessions := by
                      have h0 := dispatchAll_steps_sessions cfg orc now sid shops
                        (sessionsUpdateStatus sid SessionStatus.CALLING now
                          (sessionsUpdate sid { damage_summary := some d } now
                            (sessionsUpdateStatus sid SessionStatus.ANALYZING now s)))
                      rw [hda] at h0
                      exact h0
                    refine ⟨?_, ?_⟩ <;>
                      simp only [runQuoteSessionWorkflow, hgs, hstt0, Bool.false_eq_true,
                        if_false, hik, Bool.false_and, List.append_nil, hgs1, hdmg, hac,
                        hgs3, hshops, hda]
                    · exact ok_congr_sessions s4 _ hda1 hs3
                    · intro stp h
                      simp at h
                      rcases h with h | h | h | h
                      · rw [h]
                        exact hs1
                      · rw [h]
                        exact hs2
                      · rw [h]
                        exact hs3
                      · exact ok_congr_sessions stp.post _ (hda2 stp h) hs3
      | some ks =>
        by_cases hb : (!ks.isEmpty && !sess.image_prompt.isSome) = true
        · cases hImg : orc.imageTask with
          | error m =>
            refine ⟨?_, ?_⟩ <;>
              simp only [runQuoteSessionWorkflow, hgs, hstt0, Bool.false_eq_true,
                if_false, hik, hb, if_true, hImg]
            · exact hsF1
            · intro stp h
              simp at h
              rcases h with h | h
              · rw [h]
                exact hs1
              · rw [h]
                exact hsF1
          | ok u =>
            cases u
            cases hgs1 : getSession (sessionsUpdateStatus sid SessionStatus.ANALYZING
                now s) sid with
            | none =>
              refine ⟨?_, ?_⟩ <;>
                simp only [runQuoteSessionWorkflow, hgs, hstt0, Bool.false_eq_true,
                  if_false, hik, hb, if_true, hImg, hgs1]
              · exact hsF1
              · intro stp h
                simp at h
                rcases h with h | h | h
                · rw [h]
                  exact hs1
                · rw [h]
                  exact hs1
                · rw [h]
                  exact hsF1
            | some rf =>
              cases hdmg : orc.damage with
              | error m =>
                refine ⟨?_, ?_⟩ <;>
                  simp only [runQuoteSessionWorkflow, hgs, hstt0, Bool.false_eq_true,
                    if_false, hik, hb, if_true, hImg, hgs1, hdmg]
                · exact hsF1
                · intro stp h
                  simp at h
                  rcases h with h | h | h
                  · rw [h]
                    exact hs1
                  · rw [h]
                    exact hs1
                  · rw [h]
                    exact hsF1
              | ok d =>
                have hs2 := sessionsUpdate_ok_noreport sid
                  { damage_summary := some d } now
                  (sessionsUpdateStatus sid SessionStatus.ANALYZING now s) rfl hs1
                have hr2 := sessionsUpdate_report_none sid
                  { damage_summary := some d } now
                  (sessionsUpdateStatus sid SessionStatus.ANALYZING now s) rfl hr1
                have hs3 := sessionsUpdateStatus_ok_fresh sid SessionStatus.CALLING now
                  (sessionsUpdate sid { damage_summary := some d } now
                    (sessionsUpdateStatus sid SessionStatus.ANALYZING now s)) hr2 hs2
                by_cases hac : (!areCallsAllowed cfg) = true
                · have hs4 := sessionsUpdateStatus_ok_late sid SessionStatus.SUMMARIZING
                    now (sessionsUpdateStatus sid SessionStatus.CALLING now
                      (sessionsUpdate sid { damage_summary := some d } now
                        (sessionsUpdateStatus sid SessionStatus.ANALYZING now s)))
                    (Or.inl rfl) hs3
                  have hs5 := sessionsUpdateStatus_ok_late sid SessionStatus.DONE now
                    (sessionsUpdateStatus sid SessionStatus.SUMMARIZING now
                      (sessionsUpdateStatus sid SessionStatus.CALLING now
                        (sessionsUpdate sid { damage_summary := some d } now
                          (sessionsUpdateStatus sid SessionStatus.ANALYZING now s))))
                    (Or.inr (Or.inl rfl)) hs4
                  refine ⟨?_, ?_⟩ <;>
                    simp only [runQuoteSessionWorkflow, hgs, hstt0, Bool.false_eq_true,
                      if_false, hik, hb, if_true, hImg, hgs1, hdmg, hac]
                  · exact hs5
                  · intro stp h
                    simp at h
                    rcases h with h | h | h | h | h | h
                    · rw [h]
                      exact hs1
                    · rw [h]
                      exact hs1
                    · rw [h]
                      exact hs2
                    · rw [h]
                      exact hs3
                    · rw [h]
                      exact hs4
                    · rw [h]
                      exact hs5
                · rw [Bool.not_eq_true] at hac
                  cases hgs3 : getSession (sessionsUpdateStatus sid
                      SessionStatus.CALLING now
                      (sessionsUpdate sid { damage_summary := some d } now
                        (sessionsUpdateStatus sid SessionStatus.ANALYZING now s)))
                      sid with
                  | none =>
                    have hsF3 := sessionsUpdateStatus_ok_late sid SessionStatus.FAILED
                      now (sessionsUpdateStatus sid SessionStatus.CALLING now
                        (sessionsUpdate sid { damage_summary := some d } now
                          (sessionsUpdateStatus sid SessionStatus.ANALYZING now s)))
                      (Or.inr (Or.inr rfl)) hs3
                    refine ⟨?_, ?_⟩ <;>
                      simp only [runQuoteSessionWorkflow, hgs, hstt0,
                        Bool.false_eq_true, if_false, hik, hb, if_true, hImg, hgs1,
                        hdmg, hac, hgs3]
                    · exact hsF3
                    · intro stp h
                      simp at h
                      rcases h with h | h | h | h | h
                      · rw [h]
                        exact hs1
                      · rw [h]
                        exact hs1
                      · rw [h]
                        exact hs2
                      · rw [h]
                        exact hs3
                      · rw [h]
                        exact hsF3
                  | some sws =>
                    cases hshops : sws.shops with
                    | none =>
                      have hsF3 := sessionsUpdateStatus_ok_late sid
                        SessionStatus.FAILED now
                        (sessionsUpdateStatus sid SessionStatus.CALLING now
                          (sessionsUpdate sid { damage_summary := some d } now
                            (sessionsUpdateStatus sid SessionStatus.ANALYZING now s)))
                        (Or.inr (Or.inr rfl)) hs3
                      refine ⟨?_, ?_⟩ <;>
                        simp only [runQuoteSessionWorkflow, hgs, hstt0,
                          Bool.false_eq_true, if_false, hik, hb, if_true, hImg, hgs1,
                          hdmg, hac, hgs3, hshops]
                      · exact hsF3
                      · intro stp h
                        simp at h
                        rcases h with h | h | h | h | h
                        · rw [h]
                          exact hs1
                        · rw [h]
                          exact hs1
                        · rw [h]
                          exact hs2
                        · rw [h]
                          exact hs3
                        · rw [h]
                          exact hsF3
                    | some shops =>
                      cases hda : dispatchAll cfg orc now sid shops
                          (sessionsUpdateStatus sid SessionStatus.CALLING now
                            (sessionsUpdate sid { damage_summary := some d } now
                              (sessionsUpdateStatus sid SessionStatus.ANALYZING now
                                s))) with
                      | mk s4 t5 =>
                        have hda1 : s4.sessions =
                            (sessionsUpdateStatus sid SessionStatus.CALLING now
                              (sessionsUpdate sid { damage_summary := some d } now
                                (sessionsUpdateStatus sid SessionStatus.ANALYZING now
                                  s))).sessions := by
                          have h0 := dispatchAll_sessions cfg orc now sid shops
                            (sessionsUpdateStatus sid SessionStatus.CALLING now
                              (sessionsUpdate sid { damage_summary := some d } now
                                (sessionsUpdateStatus sid SessionStatus.ANALYZING now
                                  s)))
                          rw [hda] at h0
                          exact h0
                        have hda2 : ∀ stp ∈ t5, stp.post.sessions =
                            (sessionsUpdateStatus sid SessionStatus.CALLING now
                              (sessionsUpdate sid { damage_summary := some d } now
                                (sessionsUpdateStatus sid SessionStatus.ANALYZING now
                                  s))).sessions := by
                          have h0 := dispatchAll_steps_sessions cfg orc now sid shops
                            (sessionsUpdateStatus sid SessionStatus.CALLING now
                              (sessionsUpdate sid { damage_summary := some d } now
                                (sessionsUpdateStatus sid SessionStatus.ANALYZING now
                                  s)))
                          rw [hda] at h0
                          exact h0
                        refine ⟨?_, ?_⟩ <;>
                          simp only [runQuoteSessionWorkflow, hgs, hstt0,
                            Bool.false_eq_true, if_false, hik, hb, if_true, hImg,
                            hgs1, hdmg, hac, hgs3, hshops, hda]
                        · exact ok_congr_sessions s4 _ hda1 hs3
                        · intro stp h
                          simp at h
                          rcases h with h | h | h | h | h
                          · rw [h]
                            exact hs1
                          · rw [h]
                            exact hs1
                          · rw [h]
                            exact hs2
                          · rw [h]
                            exact hs3
                          · exact ok_congr_sessions stp.post _ (hda2 stp h) hs3
        · rw [Bool.not_eq_true] at hb
          cases hgs1 : getSession (sessionsUpdateStatus sid SessionStatus.ANALYZING
              now s) sid with
          | none =>
            refine ⟨?_, ?_⟩ <;>
              simp only [runQuoteSessionWorkflow, hgs, hstt0, Bool.false_eq_true,
                if_false, hik, hb, List.append_nil, hgs1]
            · exact hsF1
            · intro stp h
              simp at h
              rcases h with h | h
              · rw [h]
                exact hs1
              · rw [h]
                exact hsF1
          | some rf =>
            cases hdmg : orc.damage with
            | error m =>
              refine ⟨?_, ?_⟩ <;>
                simp only [runQuoteSessionWorkflow, hgs, hstt0, Bool.false_eq_true,
                  if_false, hik, hb, List.append_nil, hgs1, hdmg]
              · exact hsF1
              · intro stp h
                simp at h
                rcases h with h | h
                · rw [h]
                  exact hs1
                · rw [h]
                  exact hsF1
            | ok d =>
              have hs2 := sessionsUpdate_ok_noreport sid { damage_summary := some d }
                now (sessionsUpdateStatus sid SessionStatus.ANALYZING now s) rfl hs1
              have hr2 := sessionsUpdate_report_none sid { damage_summary := some d }
                now (sessionsUpdateStatus sid SessionStatus.ANALYZING now s) rfl hr1
              have hs3 := sessionsUpdateStatus_ok_fresh sid SessionStatus.CALLING now
                (sessionsUpdate sid { damage_summary := some d } now
                  (sessionsUpdateStatus sid SessionStatus.ANALYZING now s)) hr2 hs2
              by_cases hac : (!areCallsAllowed cfg) = true
              · have hs4 := sessionsUpdateStatus_ok_late sid SessionStatus.SUMMARIZING
                  now (sessionsUpdateStatus sid SessionStatus.CALLING now
                    (sessionsUpdate sid { damage_summary := some d } now
                      (sessionsUpdateStatus sid SessionStatus.ANALYZING now s)))
                  (Or.inl rfl) hs3
                have hs5 := sessionsUpdateStatus_ok_late sid SessionStatus.DONE now
                  (sessionsUpdateStatus sid SessionStatus.SUMMARIZING now
                    (sessionsUpdateStatus sid SessionStatus.CALLING now
                      (sessionsUpdate sid { damage_summary := some d } now
                        (sessionsUpdateStatus sid SessionStatus.ANALYZING now s))))
                  (Or.inr (Or.inl rfl)) hs4
                refine ⟨?_, ?_⟩ <;>
                  simp only [runQuoteSessionWorkflow, hgs, hstt0, Bool.false_eq_true,
                    if_false, hik, hb, List.append_nil, hgs1, hdmg, hac, if_true]
                · exact hs5
                · intro stp h
                  simp at h
                  rcases h with h | h | h | h | h
                  · rw [h]
                    exact hs1
                  · rw [h]
                    exact hs2
                  · rw [h]
                    exact hs3
                  · rw [h]
                    exact hs4
                  · rw [h]
                    exact hs5
              · rw [Bool.not_eq_true] at hac
                cases hgs3 : getSession (sessionsUpdateStatus sid SessionStatus.CALLING
                    now (sessionsUpdate sid { damage_summary := some d } now
                      (sessionsUpdateStatus sid SessionStatus.ANALYZING now s)))
                    sid with
                | none =>
                  have hsF3 := sessionsUpdateStatus_ok_late sid SessionStatus.FAILED
                    now (sessionsUpdateStatus sid SessionStatus.CALLING now
                      (sessionsUpdate sid { damage_summary := some d } now
                        (sessionsUpdateStatus sid SessionStatus.ANALYZING now s)))
                    (Or.inr (Or.inr rfl)) hs3
                  refine ⟨?_, ?_⟩ <;>
                    simp only [runQuoteSessionWorkflow, hgs, hstt0, Bool.false_eq_true,
                      if_false, hik, hb, List.append_nil, hgs1, hdmg, hac, hgs3]
                  · exact hsF3
                  · intro stp h
                    simp at h
                    rcases h with h | h | h | h
                    · rw [h]
                      exact hs1
                    · rw [h]
                      exact hs2
                    · rw [h]
                      exact hs3
                    · rw [h]
                      exact hsF3
                | some sws =>
                  cases hshops : sws.shops with
                  | none =>
                    have hsF3 := sessionsUpdateStatus_ok_late sid SessionStatus.FAILED
                      now (sessionsUpdateStatus sid SessionStatus.CALLING now
                        (sessionsUpdate sid { damage_summary := some d } now
                          (sessionsUpdateStatus sid SessionStatus.ANALYZING now s)))
                      (Or.inr (Or.inr rfl)) hs3
                    refine ⟨?_, ?_⟩ <;>
                      simp only [runQuoteSessionWorkflow, hgs, hstt0,
                        Bool.false_eq_true, if_false, hik, hb, List.append_nil, hgs1,
                        hdmg, hac, hgs3, hshops]
                    · exact hsF3
                    · intro stp h
                      simp at h
                      rcases h with h | h | h | h
                      · rw [h]
                        exact hs1
                      · rw [h]
                        exact hs2
                      · rw [h]
                        exact hs3
                      · rw [h]
                        exact hsF3
                  | some shops =>
                    cases hda : dispatchAll cfg orc now sid shops
                        (sessionsUpdateStatus sid SessionStatus.CALLING now
                          (sessionsUpdate sid { damage_summary := some d } now
                            (sessionsUpdateStatus sid SessionStatus.ANALYZING now s)))
                        with
                    | mk s4 t5 =>
                      have hda1 : s4.sessions =
                          (sessionsUpdateStatus sid SessionStatus.CALLING now
                            (sessionsUpdate sid { damage_summary := some d } now
                              (sessionsUpdateStatus sid SessionStatus.ANALYZING now
                                s))).sessions := by
                        have h0 := dispatchAll_sessions cfg orc now sid shops
                          (sessionsUpdateStatus sid SessionStatus.CALLING now
                            (sessionsUpdate sid { damage_summary := some d } now
                              (sessionsUpdateStatus sid SessionStatus.ANALYZING now s)))
                        rw [hda] at h0
                        exact h0
                      have hda2 : ∀ stp ∈ t5, stp.post.sessions =
                          (sessionsUpdateStatus sid SessionStatus.CALLING now
                            (sessionsUpdate sid { damage_summary := some d } now
                              (sessionsUpdateStatus sid SessionStatus.ANALYZING now
                                s))).sessions := by
                        have h0 := dispatchAll_steps_sessions cfg orc now sid shops
                          (sessionsUpdateStatus sid SessionStatus.CALLING now
                            (sessionsUpdate sid { damage_summary := some d } now
                              (sessionsUpdateStatus sid SessionStatus.ANALYZING now s)))
                        rw [hda] at h0
                        exact h0
                      refine ⟨?_, ?_⟩ <;>
                        simp only [runQuoteSessionWorkflow, hgs, hstt0,
                          Bool.false_eq_true, if_false, hik, hb, List.append_nil,
                          hgs1, hdmg, hac, hgs3, hshops, hda]
                      · exact ok_congr_sessions s4 _ hda1 hs3
                      · intro stp h
                        simp at h
                        rcases h with h | h | h | h
                        · rw [h]
                          exact hs1
                        · rw [h]
                          exact hs2
                        · rw [h]
                          exact hs3
                        · exact ok_congr_sessions stp.post _ (hda2 stp h) hs3

/-- Unfolding of runCmds on a cons cell. -/
theorem runCmds_cons (c : Cmd) (rest : List Cmd) (s : Store) :
    runCmds (c :: rest) s =
      ((runCmds rest (runCmd c s).1).1,
        (runCmd c s).2 ++ (runCmds rest (runCmd c s).1).2) := by
  cases h1 : runCmd c s with
  | mk s1 t1 =>
    cases h2 : runCmds rest s1 with
    | mk s2 t2 =>
      simp [runCmds, h1, h2]

/-- Each command preserves the report/status relationship on its final state and on
every intermediate state it records. -/
theorem runCmd_ok (c : Cmd) (s : Store)
    (hs : ∀ it ∈ s.sessions, sessionItemOk it = true) :
    (∀ it ∈ ((runCmd c s).1).sessions, sessionItemOk it = true) ∧
    (∀ stp ∈ (runCmd c s).2, ∀ it ∈ stp.post.sessions, sessionItemOk it = true) := by
  cases c with
  | createSession inp now =>
    simp only [runCmd]
    have hnew : ∀ s1 : Store, sessionsCreate (mkCreatedSession inp now) s = .ok s1 →
        ∀ it ∈ s1.sessions, sessionItemOk it = true := by
      intro s1 hc
      unfold sessionsCreate at hc
      cases hany : s.sessions.any (sessionKey (mkCreatedSession inp now).session_id)
          with
      | true =>
        rw [hany] at hc
        simp at hc
      | false =>
        rw [hany] at hc
        simp only [Bool.false_eq_true, if_false, Except.ok.injEq] at hc
        subst hc
        intro it hit
        rcases List.mem_append.mp hit with hit | hit
        · exact hs it hit
        · simp only [List.mem_singleton] at hit
          rw [hit]
          rfl
    split
    next s1 hc =>
      have hs1 := hnew s1 hc
      refine ⟨hs1, ?_⟩
      intro stp h
      simp only [List.mem_singleton] at h
      rw [h]
      exact hs1
    next e hc =>
      refine ⟨hs, ?_⟩
      intro stp h
      simp at h
  | startWorkflow cfg orc now sid =>
    exact runQuoteSessionWorkflow_ok cfg orc now sid s hs
  | webhook now reportOracle ev =>
    exact webhookPOST_ok now reportOracle ev s hs
  | resumeImage now damageOracle sid prompt =>
    exact resumeAfterImagePrompt_ok now damageOracle sid prompt s hs

/-- A whole command sequence preserves the report/status relationship on the final
state and on every intermediate state it passes through. -/
theorem runCmds_ok :
    ∀ (cmds : List Cmd) (s : Store),
      (∀ it ∈ s.sessions, sessionItemOk it = true) →
      (∀ it ∈ ((runCmds cmds s).1).sessions, sessionItemOk it = true) ∧
      (∀ stp ∈ (runCmds cmds s).2, ∀ it ∈ stp.post.sessions,
        sessionItemOk it = true) := by
  intro cmds
  induction cmds with
  | nil =>
    intro s hs
    refine ⟨hs, ?_⟩
    intro stp h
    simp [runCmds] at h
  | cons c rest ih =>
    intro s hs
    have hc := runCmd_ok c s hs
    have hrest := ih (runCmd c s).1 hc.1
    rw [runCmds_cons]
    refine ⟨hrest.1, ?_⟩
    intro stp h
    rcases List.mem_append.mp h with h | h
    · exact hc.2 stp h
    · exact hrest.2 stp h

/-- C5: in every store state reachable by any command sequence (session creation,
workflow runs, webhook deliveries, Freepik resumes), including every intermediate
state between repository writes, a session item whose report attribute is set has
status SUMMARIZING, DONE or FAILED.  The spec's stronger claim - report non-null only
when status equals DONE - does not hold: generateFinalReport persists the report one
write before the DONE transition, while the session is still SUMMARIZING. -/
theorem report_only_in_late_statuses (cmds : List Cmd) (st : Store)
    (hst : st ∈ reachableStores cmds) (it : SessionItem) (hit : it ∈ st.sessions)
    (hr : it.report.isSome = true) :
    it.status = some SessionStatus.SUMMARIZING ∨ it.status = some SessionStatus.DONE ∨
      it.status = some SessionStatus.FAILED := by
  have hempty : ∀ it0 ∈ emptyStore.sessions, sessionItemOk it0 = true := by
    intro it0 hit0
    simp [emptyStore] at hit0
  have hok : sessionItemOk it = true := by
    unfold reachableStores at hst
    rcases List.mem_cons.mp hst with hst | hst
    · rw [hst] at hit
      simp [emptyStore] at hit
    · rcases List.mem_map.mp hst with ⟨stp, hstp, hpost⟩
      have h := (runCmds_ok cmds emptyStore hempty).2 stp hstp
      rw [← hpost] at hit
      exact h it hit
  unfold sessionItemOk at hok
  rw [hr] at hok
  simp only [Bool.not_true, Bool.false_or, Bool.or_eq_true, beq_iff_eq] at hok
  rcases hok with (h | h) | h
  · exact Or.inl h
  · exact Or.inr (Or.inl h)
  · exact Or.inr (Or.inr h)

/-- C5 counterexample to the claim as stated (report non-null only when status is
DONE): after creating a session and delivering one call.ended event, the system
passes through a store whose session carries the persisted report while its status
is still SUMMARIZING. -/
theorem report_set_while_summarizing_cex :
    ∃ st ∈ reachableStores
        [Cmd.createSession wInput 0, Cmd.webhook 7 (Except.ok wReport) wEndedEvA],
      ∃ it ∈ st.sessions,
        it.report.isSome = true ∧ it.status = some SessionStatus.SUMMARIZING := by
  decide

/-- Witness for C5 at a concrete input: the final state of the same command sequence
stores a report, and the proved theorem places its status in the late set (here it
is DONE). -/
theorem report_only_in_late_statuses_witness :
    (((runCmds [Cmd.createSession wInput 0, Cmd.webhook 7 (Except.ok wReport)
          wEndedEvA] emptyStore).1).sessions.getD 0 (emptySessionItem "")).status =
        some SessionStatus.SUMMARIZING ∨
      (((runCmds [Cmd.createSession wInput 0, Cmd.webhook 7 (Except.ok wReport)
          wEndedEvA] emptyStore).1).sessions.getD 0 (emptySessionItem "")).status =
        some SessionStatus.DONE ∨
      (((runCmds [Cmd.createSession wInput 0, Cmd.webhook 7 (Except.ok wReport)
          wEndedEvA] emptyStore).1).sessions.getD 0 (emptySessionItem "")).status =
        some SessionStatus.FAILED :=
  report_only_in_late_statuses
    [Cmd.createSession wInput 0, Cmd.webhook 7 (Except.ok wReport) wEndedEvA]
    (runCmds [Cmd.createSession wInput 0, Cmd.webhook 7 (Except.ok wReport)
      wEndedEvA] emptyStore).1
    (by decide)
    (((runCmds [Cmd.createSession wInput 0, Cmd.webhook 7 (Except.ok wReport)
        wEndedEvA] emptyStore).1).sessions.getD 0 (emptySessionItem ""))
    (by decide)
    (by decide)

/-- C1: with DEMO_MODE and SCOPE_CALLS_TO_DEMO_LIST both "true", enforceDemoMode
either returns a member of the allow-list (namely the requested number itself, when
it is a member) or throws DemoModeViolationError naming the requested number; it
never returns a number outside the allow-list. -/
theorem enforceDemoMode_scoped_safe (cfg : EnvCfg) (rand : Nat) (n : String)
    (hDemo : cfg.DEMO_MODE = "true") (hScope : cfg.SCOPE_CALLS_TO_DEMO_LIST = "true") :
    (enforceDemoMode cfg rand n = .ok n ∧ n ∈ getDemoNumbers cfg) ∨
    enforceDemoMode cfg rand n = .error (.demoModeViolation n) := by
  unfold enforceDemoMode
  simp only [hDemo, hScope]
  by_cases hmem : n ∈ getDemoNumbers cfg
  · left
    constructor
    · simp [hmem]
    · exact hmem
  · right
    simp [hmem]

/-- Witness for C1 at a concrete configuration and requested number. -/
theorem enforceDemoMode_scoped_safe_witness :
    let cfg : EnvCfg :=
      { DEMO_MODE := "true", DEMO_TO_NUMBERS := "+15550100001,+15550100002",
        DEMO_NUMBER_STRATEGY := "first", SCOPE_CALLS_TO_DEMO_LIST := "true",
        ALLOW_OUTBOUND_CALLS := "true" }
    (enforceDemoMode cfg 0 "+15550100002" = .ok "+15550100002" ∧
      "+15550100002" ∈ getDemoNumbers cfg) ∨
    enforceDemoMode cfg 0 "+15550100002" = .error (.demoModeViolation "+15550100002") :=
  enforceDemoMode_scoped_safe _ 0 "+15550100002" rfl rfl

end AutoQuote
